import Mathlib

/-!
# Wireframe viewer (`main.cpp`): mesh import, input mapping, transform, frame loop

A shallow embedding of `src/main.cpp`.

* The process-wide variables (`translation`, `rotationAngleZ`, `rotationAngleY`, `scaleFactor`,
  `vertices`, `indices`) together with the observable effects of the collaborators (the window's
  close flag, the error stream, the sequence of windowing / graphics calls) form one record,
  `State F`, which every function passes explicitly.
* `F` is the type of `float` values.  The definitions use only the operations the source uses
  (`+`, `-`, `*`, the literals); no algebraic law is assumed by a definition.
* Results of the collaborators (the OBJ parser, the windowing library, the key states of each
  frame) are inputs of the model.
-/

set_option maxRecDepth 10000
set_option exponentiation.threshold 1024

namespace Wireframe

/-! ## Data model -/

/-- A `glm::vec3`. -/
structure Vec3 (F : Type) where
  x : F
  y : F
  z : F
deriving DecidableEq, Repr

/-- A `glm::vec4`. -/
structure Vec4 (F : Type) where
  x : F
  y : F
  z : F
  w : F
deriving DecidableEq, Repr

/-- A `glm::mat4`, stored column by column as GLM does: `c0` is `m[0]`. -/
structure Mat4 (F : Type) where
  c0 : Vec4 F
  c1 : Vec4 F
  c2 : Vec4 F
  c3 : Vec4 F
deriving DecidableEq, Repr

namespace tinyobj

/-- The `tinyobj::index_t` of one face corner. -/
structure index_t where
  vertex_index : Int
  normal_index : Int
  texcoord_index : Int
deriving DecidableEq, Repr

/-- The part of `tinyobj::mesh_t` that `loadOBJ` reads. -/
structure mesh_t where
  indices : List index_t
deriving DecidableEq, Repr

/-- The part of `tinyobj::shape_t` that `loadOBJ` reads. -/
structure shape_t where
  mesh : mesh_t
deriving DecidableEq, Repr

/-- The part of `tinyobj::attrib_t` that `loadOBJ` reads: the flat position array. -/
structure attrib_t (F : Type) where
  vertices : List F
deriving DecidableEq, Repr

/-- What one call of `tinyobj::LoadObj` leaves behind: its return value and the two output
arguments `loadOBJ` looks at.  The parser itself is an external collaborator. -/
structure LoadResult (F : Type) where
  ret : Bool
  attrib : attrib_t F
  shapes : List shape_t
deriving DecidableEq, Repr

end tinyobj

open tinyobj

/-- Calls into the windowing and graphics collaborators, in the order they are issued
(`createShaderProgram` and `setupBuffers` stand for the calls those two functions make). -/
inductive Call (F : Type) where
  | glfwInit
  | glfwCreateWindow
  | glfwMakeContextCurrent
  | glewInit
  | createShaderProgram
  | setupBuffers (vertexCount indexCount : Nat)
  | glfwPollEvents
  | glClearColor
  | glClear
  | glUseProgram
  | glGetUniformLocation
  | glUniformMatrix4fv (transform : Mat4 F)
  | glPolygonMode
  | glBindVertexArray
  | glDrawElements (count : Nat)
  | glfwSwapBuffers
  | glDeleteVertexArrays
  | glDeleteBuffers
  | glDeleteProgram
  | glfwTerminate
deriving DecidableEq, Repr

/-- The global variables of `main.cpp` and the observable state of its collaborators. -/
structure State (F : Type) where
  translation : Vec3 F
  rotationAngleZ : F
  rotationAngleY : F
  scaleFactor : F
  vertices : List F
  indices : List Nat
  /-- The window's close flag (`glfwWindowShouldClose`). -/
  shouldClose : Bool
  /-- Lines written to `std::cerr`. -/
  cerr : List String
  /-- Collaborator calls issued so far. -/
  calls : List (Call F)
deriving DecidableEq

/-! ## The type `float`

IEEE-754 binary32 with round-to-nearest, ties-to-even.  Every finite binary32 number is an
integer multiple of the smallest subnormal `2⁻¹⁴⁹`, so a finite value is stored as that integer.
The infinities and NaN are collapsed into one absorbing value, and the two zeros are identified:
for `+`, `-` and `*` an operand that is not finite always gives a result that is not finite, and
the sign of a zero never changes the numeric value of a result. -/

/-- A value of type `float`: `finite k` is the number `k · 2⁻¹⁴⁹`. -/
inductive Float32 where
  | finite (k : Int)
  | nonfinite
deriving DecidableEq, Repr

namespace Float32

/-- How many low bits of the magnitude `a` do not fit into a 24-bit significand
(`fuel` bounds the recursion; `a` itself is always enough). -/
def excessBits : Nat → Nat → Nat
  | 0, _ => 0
  | fuel + 1, a => if a < 2 ^ 24 then 0 else excessBits fuel (a / 2) + 1

/-- Round the magnitude `a · 2⁻⁽¹⁴⁹⁺ᵉ⁾` to the nearest binary32 magnitude, ties to even; the
result is in units of `2⁻¹⁴⁹`. -/
def roundMagnitude (a e : Nat) : Nat :=
  let sh := max (excessBits a a) e
  let q := a / 2 ^ sh
  let r := a % 2 ^ sh
  let q' := if 2 ^ sh < 2 * r ∨ (2 ^ sh = 2 * r ∧ q % 2 = 1) then q + 1 else q
  q' * 2 ^ (sh - e)

/-- Round the exact value `n · 2⁻⁽¹⁴⁹⁺ᵉ⁾` to binary32; magnitudes of `2¹²⁸` and above overflow. -/
def round (n : Int) (e : Nat) : Float32 :=
  let m := roundMagnitude n.natAbs e
  if 2 ^ 128 * 2 ^ 149 ≤ m then nonfinite
  else finite (if n < 0 then -(m : Int) else (m : Int))

/-- The operator `+` of `float`. -/
def add : Float32 → Float32 → Float32
  | finite a, finite b => round (a + b) 0
  | _, _ => nonfinite

/-- The operator `-` of `float`. -/
def sub : Float32 → Float32 → Float32
  | finite a, finite b => round (a - b) 0
  | _, _ => nonfinite

/-- The operator `*` of `float`. -/
def mul : Float32 → Float32 → Float32
  | finite a, finite b => round (a * b) 149
  | _, _ => nonfinite

instance : Add Float32 := ⟨add⟩
instance : Sub Float32 := ⟨sub⟩
instance : Mul Float32 := ⟨mul⟩
instance : Zero Float32 := ⟨finite 0⟩
instance : One Float32 := ⟨finite (2 ^ 149 : Nat)⟩

/-- The integer `n` as a `float`, for `|n| < 2²⁴` (exactly representable). -/
def ofInt (n : Int) : Float32 := finite (n * (2 ^ 149 : Nat))

/-- A finite value that binary32 can represent: rounding leaves it alone. -/
def Representable (x : Float32) : Prop :=
  ∃ k, x = finite k ∧ round k 0 = finite k

/-- The rational number a finite `float` stands for (`nonfinite` is sent to 0). -/
def toRat : Float32 → ℚ
  | finite k => (k : ℚ) / 2 ^ 149
  | nonfinite => 0

end Float32

/-! ## Mesh importer (`loadOBJ`) -/

/-- Largest value of `int`. -/
def INT_MAX : Int := 2147483647

/-- Number of values of `unsigned int`. -/
def UINT_RANGE : Nat := 4294967296

/-- The read `attrib.vertices[3 * index.vertex_index + j]`.  The subscript is computed in `int`;
the read is defined only when that computation does not overflow and the subscript lies inside
the array (a negative subscript converts to a `size_t` beyond any array). -/
def readPosition {F : Type} (attrib : attrib_t F) (index : index_t) (j : Nat) : Option F :=
  let i : Int := 3 * index.vertex_index + j
  if 0 ≤ i ∧ i ≤ INT_MAX then attrib.vertices[i.toNat]? else none

/-- Body of the inner loop of `loadOBJ`: three `vertices.push_back` and
`indices.push_back(indices.size())`, the size being converted to `unsigned int`. -/
def pushCorner {F : Type} (attrib : attrib_t F) (st : State F) (index : index_t) :
    Option (State F) :=
  match readPosition attrib index 0, readPosition attrib index 1, readPosition attrib index 2 with
  | some a, some b, some c =>
    some { st with
      vertices := st.vertices ++ [a, b, c]
      indices := st.indices ++ [st.indices.length % UINT_RANGE] }
  | _, _, _ => none

/-- The inner loop `for (const auto& index : shape.mesh.indices)`. -/
def loadCorners {F : Type} (attrib : attrib_t F) : List index_t → State F → Option (State F)
  | [], st => some st
  | index :: rest, st => (pushCorner attrib st index).bind (loadCorners attrib rest)

/-- The outer loop `for (const auto& shape : shapes)`. -/
def loadShapes {F : Type} (attrib : attrib_t F) : List shape_t → State F → Option (State F)
  | [], st => some st
  | shape :: rest, st => (loadCorners attrib shape.mesh.indices st).bind (loadShapes attrib rest)

/-- The diagnostic of a failed parse. -/
def loadFailureMessage : String := "Failed to load/parse .obj file!"

/-- The function `loadOBJ`, given what `tinyobj::LoadObj` returned for the path.  `none` stands
for undefined behaviour (an out-of-range read of `attrib.vertices`). -/
def loadOBJ {F : Type} (r : LoadResult F) (st : State F) : Option (State F) :=
  if !r.ret then
    some { st with cerr := st.cerr ++ [loadFailureMessage] }
  else
    loadShapes r.attrib r.shapes st

/-- All face corners of a parse result: the concatenation, in shape order, of every shape's
`mesh.indices`. -/
def faceCorners (shapes : List shape_t) : List index_t :=
  (shapes.map fun shape => shape.mesh.indices).flatten

/-- A face corner whose three reads are inside `attrib.vertices` and computable in `int`. -/
def ValidCorner {F : Type} (attrib : attrib_t F) (index : index_t) : Prop :=
  0 ≤ index.vertex_index ∧ 3 * index.vertex_index + 2 < attrib.vertices.length ∧
    3 * index.vertex_index + 2 ≤ INT_MAX

instance {F : Type} (attrib : attrib_t F) (index : index_t) : Decidable (ValidCorner attrib index) := by
  unfold ValidCorner; infer_instance

/-! ## Transform state and input mapper (`processInput`) -/

/-- The `float` literals of `main.cpp` that are not 0 or 1. -/
class FloatLiterals (F : Type) where
  /-- The literal `0.01f`. -/
  lit_0_01 : F
  /-- The literal `30.0f`. -/
  lit_30 : F
  /-- The literal `6.0f`. -/
  lit_6 : F

/-- In binary32, `0.01f` is `0x3C23D70A = 10737418 · 2⁻³⁰`; 30 and 6 are exact. -/
instance : FloatLiterals Float32 where
  lit_0_01 := Float32.finite (10737418 * 2 ^ 119 : Nat)
  lit_30 := Float32.ofInt 30
  lit_6 := Float32.ofInt 6

/-- The initial values of the global variables (lines 30-36), before any collaborator call. -/
def initialState {F : Type} [Zero F] [FloatLiterals F] : State F where
  translation := ⟨0, 0, 0⟩
  rotationAngleZ := 0
  rotationAngleY := 0
  scaleFactor := FloatLiterals.lit_6
  vertices := []
  indices := []
  shouldClose := false
  cerr := []
  calls := []

/-! GLFW key codes (`GLFW/glfw3.h`). -/

/-- Key code of Escape. -/
def GLFW_KEY_ESCAPE : Nat := 256
/-- Key code of W. -/
def GLFW_KEY_W : Nat := 87
/-- Key code of S. -/
def GLFW_KEY_S : Nat := 83
/-- Key code of A. -/
def GLFW_KEY_A : Nat := 65
/-- Key code of D. -/
def GLFW_KEY_D : Nat := 68
/-- Key code of R. -/
def GLFW_KEY_R : Nat := 82
/-- Key code of F. -/
def GLFW_KEY_F : Nat := 70
/-- Key code of Q. -/
def GLFW_KEY_Q : Nat := 81
/-- Key code of E. -/
def GLFW_KEY_E : Nat := 69
/-- Key code of Z. -/
def GLFW_KEY_Z : Nat := 90
/-- Key code of C. -/
def GLFW_KEY_C : Nat := 67

/-- The key states of one frame: `keys k` holds when `glfwGetKey(window, k) == GLFW_PRESS`. -/
abbrev KeyState := Nat → Bool

/-- The function `processInput`: eleven tests in source order, each applying its update when
its key is pressed. -/
def processInput {F : Type} [Add F] [Sub F] [FloatLiterals F] (keys : KeyState) (st : State F) :
    State F :=
  let st := if keys GLFW_KEY_ESCAPE then { st with shouldClose := true } else st
  let d : F := FloatLiterals.lit_0_01
  let st := if keys GLFW_KEY_W then
    { st with translation := { st.translation with y := st.translation.y + d } } else st
  let st := if keys GLFW_KEY_S then
    { st with translation := { st.translation with y := st.translation.y - d } } else st
  let st := if keys GLFW_KEY_A then
    { st with translation := { st.translation with x := st.translation.x - d } } else st
  let st := if keys GLFW_KEY_D then
    { st with translation := { st.translation with x := st.translation.x + d } } else st
  let s : F := FloatLiterals.lit_0_01
  let st := if keys GLFW_KEY_R then { st with scaleFactor := st.scaleFactor + s } else st
  let st := if keys GLFW_KEY_F then { st with scaleFactor := st.scaleFactor - s } else st
  let st := if keys GLFW_KEY_Q then
    { st with rotationAngleZ := st.rotationAngleZ + FloatLiterals.lit_30 } else st
  let st := if keys GLFW_KEY_E then
    { st with rotationAngleZ := st.rotationAngleZ - FloatLiterals.lit_30 } else st
  let st := if keys GLFW_KEY_Z then
    { st with rotationAngleY := st.rotationAngleY + FloatLiterals.lit_30 } else st
  let st := if keys GLFW_KEY_C then
    { st with rotationAngleY := st.rotationAngleY - FloatLiterals.lit_30 } else st
  st

/-- The key state in which exactly the key `k` is pressed. -/
def onlyKey (k : Nat) : KeyState := fun k' => decide (k' = k)

/-- Whether `k` is one of the eleven key codes `processInput` queries. -/
def recognisedKeys : List Nat :=
  [GLFW_KEY_ESCAPE, GLFW_KEY_W, GLFW_KEY_S, GLFW_KEY_A, GLFW_KEY_D, GLFW_KEY_R, GLFW_KEY_F,
    GLFW_KEY_Q, GLFW_KEY_E, GLFW_KEY_Z, GLFW_KEY_C]

/-- Apply `f` when the key is pressed. -/
def whenPressed {F : Type} (pressed : Bool) (f : F → F) (x : F) : F :=
  if pressed then f x else x

/-! ## GLM (`glm::translate`, `glm::rotate`, `glm::scale`)

GLM is a library outside the repository; the three functions follow its reference
implementation (`glm/ext/matrix_transform.inl`), operation by operation. -/

namespace Vec4

/-- GLM's `vec4 * scalar`. -/
def scale {F : Type} [Mul F] (v : Vec4 F) (s : F) : Vec4 F :=
  ⟨v.x * s, v.y * s, v.z * s, v.w * s⟩

/-- GLM's `vec4 + vec4`. -/
def add {F : Type} [Add F] (u v : Vec4 F) : Vec4 F :=
  ⟨u.x + v.x, u.y + v.y, u.z + v.z, u.w + v.w⟩

end Vec4

namespace glm

/-- The constructor `glm::mat4(1.0f)`: the identity matrix. -/
def identity {F : Type} [Zero F] [One F] : Mat4 F :=
  ⟨⟨1, 0, 0, 0⟩, ⟨0, 1, 0, 0⟩, ⟨0, 0, 1, 0⟩, ⟨0, 0, 0, 1⟩⟩

/-- The function `glm::translate(m, v)`:
`Result[3] = m[0] * v[0] + m[1] * v[1] + m[2] * v[2] + m[3]`. -/
def translate {F : Type} [Add F] [Mul F] (m : Mat4 F) (v : Vec3 F) : Mat4 F :=
  { m with c3 := (((m.c0.scale v.x).add (m.c1.scale v.y)).add (m.c2.scale v.z)).add m.c3 }

/-- The function `glm::rotate(m, angle, axis)` for an axis that is already a unit vector (the
two axes `updateTransform` passes are, and `glm::normalize` leaves them as they are).
`cosf` and `sinf` are the `float` cosine and sine of the C library. -/
def rotate {F : Type} [One F] [Add F] [Sub F] [Mul F] (cosf sinf : F → F) (m : Mat4 F)
    (angle : F) (axis : Vec3 F) : Mat4 F :=
  let c := cosf angle
  let s := sinf angle
  let temp : Vec3 F := ⟨(1 - c) * axis.x, (1 - c) * axis.y, (1 - c) * axis.z⟩
  let r00 := c + temp.x * axis.x
  let r01 := temp.x * axis.y + s * axis.z
  let r02 := temp.x * axis.z - s * axis.y
  let r10 := temp.y * axis.x - s * axis.z
  let r11 := c + temp.y * axis.y
  let r12 := temp.y * axis.z + s * axis.x
  let r20 := temp.z * axis.x + s * axis.y
  let r21 := temp.z * axis.y - s * axis.x
  let r22 := c + temp.z * axis.z
  { c0 := ((m.c0.scale r00).add (m.c1.scale r01)).add (m.c2.scale r02)
    c1 := ((m.c0.scale r10).add (m.c1.scale r11)).add (m.c2.scale r12)
    c2 := ((m.c0.scale r20).add (m.c1.scale r21)).add (m.c2.scale r22)
    c3 := m.c3 }

/-- The function `glm::scale(m, v)`. -/
def scale {F : Type} [Mul F] (m : Mat4 F) (v : Vec3 F) : Mat4 F :=
  { c0 := m.c0.scale v.x, c1 := m.c1.scale v.y, c2 := m.c2.scale v.z, c3 := m.c3 }

end glm

/-- The library functions `updateTransform` needs besides GLM's matrix code: `glm::radians`
and the `float` cosine and sine. -/
structure Trig (F : Type) where
  radians : F → F
  cosf : F → F
  sinf : F → F

/-- The local variable `transform` of `updateTransform` just before the upload (lines 159-163). -/
def transformMatrix {F : Type} [Zero F] [One F] [Add F] [Sub F] [Mul F] (T : Trig F)
    (st : State F) : Mat4 F :=
  let transform : Mat4 F := glm.identity
  let transform := glm.translate transform st.translation
  let transform := glm.rotate T.cosf T.sinf transform (T.radians st.rotationAngleY) ⟨0, 1, 0⟩
  let transform := glm.rotate T.cosf T.sinf transform (T.radians st.rotationAngleZ) ⟨0, 0, 1⟩
  let transform := glm.scale transform ⟨st.scaleFactor, st.scaleFactor, st.scaleFactor⟩
  transform

/-- The function `updateTransform`: build the matrix and upload it as the uniform. -/
def updateTransform {F : Type} [Zero F] [One F] [Add F] [Sub F] [Mul F] (T : Trig F)
    (st : State F) : State F :=
  { st with calls := st.calls ++
      [Call.glGetUniformLocation, Call.glUniformMatrix4fv (transformMatrix T st)] }

/-- The matrix with the given diagonal, as a `glm::mat4`. -/
def Mat4.diag {F : Type} [Zero F] (a b c d : F) : Mat4 F :=
  ⟨⟨a, 0, 0, 0⟩, ⟨0, b, 0, 0⟩, ⟨0, 0, c, 0⟩, ⟨0, 0, 0, d⟩⟩

/-- A `glm::mat4` as a mathematical matrix: entry `(i, j)` is row `i` of column `j`. -/
def Mat4.toMatrix {F : Type} (m : Mat4 F) : Matrix (Fin 4) (Fin 4) F :=
  !![m.c0.x, m.c1.x, m.c2.x, m.c3.x;
     m.c0.y, m.c1.y, m.c2.y, m.c3.y;
     m.c0.z, m.c1.z, m.c2.z, m.c3.z;
     m.c0.w, m.c1.w, m.c2.w, m.c3.w]

/-- The translation matrix `Translate(t)`. -/
def translateMatrix {R : Type} [Zero R] [One R] (t : Vec3 R) : Matrix (Fin 4) (Fin 4) R :=
  !![1, 0, 0, t.x; 0, 1, 0, t.y; 0, 0, 1, t.z; 0, 0, 0, 1]

/-- The rotation matrix `RotateY` for the given cosine and sine. -/
def rotateYMatrix {R : Type} [Zero R] [One R] [Neg R] (c s : R) : Matrix (Fin 4) (Fin 4) R :=
  !![c, 0, s, 0; 0, 1, 0, 0; -s, 0, c, 0; 0, 0, 0, 1]

/-- The rotation matrix `RotateZ` for the given cosine and sine. -/
def rotateZMatrix {R : Type} [Zero R] [One R] [Neg R] (c s : R) : Matrix (Fin 4) (Fin 4) R :=
  !![c, -s, 0, 0; s, c, 0, 0; 0, 0, 1, 0; 0, 0, 0, 1]

/-- The scaling matrix `Scale(s)`. -/
def scaleMatrix {R : Type} [Zero R] [One R] (s : R) : Matrix (Fin 4) (Fin 4) R :=
  !![s, 0, 0, 0; 0, s, 0, 0; 0, 0, s, 0; 0, 0, 0, 1]

/-- The product `Translate(t) · RotateY · RotateZ · Scale(s)` of the textbook matrices, in a
commutative ring. -/
def composedMatrix {R : Type} [CommRing R] (T : Trig R) (st : State R) :
    Matrix (Fin 4) (Fin 4) R :=
  translateMatrix st.translation *
    rotateYMatrix (T.cosf (T.radians st.rotationAngleY)) (T.sinf (T.radians st.rotationAngleY)) *
    rotateZMatrix (T.cosf (T.radians st.rotationAngleZ)) (T.sinf (T.radians st.rotationAngleZ)) *
    scaleMatrix st.scaleFactor

/-! ## Float matrix product (GLM's `mat4 * mat4`) and the four factor matrices -/

/-- Whether a `float` is a number (neither an infinity nor NaN). -/
def Float32.isFinite : Float32 → Bool
  | .finite _ => true
  | .nonfinite => false

/-- A value as a `float` operation leaves it: not a number, or a binary32 number. -/
def Float32.Rounded (x : Float32) : Prop :=
  x = Float32.nonfinite ∨ x.Representable

/-- All four components are numbers. -/
def Vec4.AllFinite (v : Vec4 Float32) : Prop :=
  v.x.isFinite = true ∧ v.y.isFinite = true ∧ v.z.isFinite = true ∧ v.w.isFinite = true

/-- All sixteen entries are numbers. -/
def Mat4.AllFinite (m : Mat4 Float32) : Prop :=
  m.c0.AllFinite ∧ m.c1.AllFinite ∧ m.c2.AllFinite ∧ m.c3.AllFinite

instance (v : Vec4 Float32) : Decidable v.AllFinite := by
  unfold Vec4.AllFinite; infer_instance

instance (m : Mat4 Float32) : Decidable m.AllFinite := by
  unfold Mat4.AllFinite; infer_instance

/-- All four components are as a `float` operation leaves them. -/
def Vec4.AllRounded (v : Vec4 Float32) : Prop :=
  v.x.Rounded ∧ v.y.Rounded ∧ v.z.Rounded ∧ v.w.Rounded

/-- All sixteen entries are as a `float` operation leaves them. -/
def Mat4.AllRounded (m : Mat4 Float32) : Prop :=
  m.c0.AllRounded ∧ m.c1.AllRounded ∧ m.c2.AllRounded ∧ m.c3.AllRounded

/-- GLM's `mat4 * mat4`: column `j` of the product is
`a[0] * b[j][0] + a[1] * b[j][1] + a[2] * b[j][2] + a[3] * b[j][3]`, in the arithmetic of `F`. -/
def Mat4.mul {F : Type} [Add F] [Mul F] (a b : Mat4 F) : Mat4 F :=
  let col (v : Vec4 F) : Vec4 F :=
    (((a.c0.scale v.x).add (a.c1.scale v.y)).add (a.c2.scale v.z)).add (a.c3.scale v.w)
  ⟨col b.c0, col b.c1, col b.c2, col b.c3⟩

/-- The factor `Translate(t)`: the identity with `t` in the last column. -/
def glm.translation {F : Type} [Zero F] [One F] (t : Vec3 F) : Mat4 F :=
  ⟨⟨1, 0, 0, 0⟩, ⟨0, 1, 0, 0⟩, ⟨0, 0, 1, 0⟩, ⟨t.x, t.y, t.z, 1⟩⟩

/-- The factor `Rotate(angle, axis)`: the rotation block GLM forms in `glm::rotate` from
`cosf(angle)`, `sinf(angle)` and the unit axis, completed to a `mat4`. -/
def glm.rotation {F : Type} [Zero F] [One F] [Add F] [Sub F] [Mul F] (cosf sinf : F → F)
    (angle : F) (axis : Vec3 F) : Mat4 F :=
  let c := cosf angle
  let s := sinf angle
  let temp : Vec3 F := ⟨(1 - c) * axis.x, (1 - c) * axis.y, (1 - c) * axis.z⟩
  { c0 := ⟨c + temp.x * axis.x, temp.x * axis.y + s * axis.z, temp.x * axis.z - s * axis.y, 0⟩
    c1 := ⟨temp.y * axis.x - s * axis.z, c + temp.y * axis.y, temp.y * axis.z + s * axis.x, 0⟩
    c2 := ⟨temp.z * axis.x + s * axis.y, temp.z * axis.y - s * axis.x, c + temp.z * axis.z, 0⟩
    c3 := ⟨0, 0, 0, 1⟩ }

/-- The factor `Scale(s)`: `diag(s, s, s, 1)`. -/
def glm.scaling {F : Type} [Zero F] [One F] (s : F) : Mat4 F :=
  Mat4.diag s s s 1

/-- The product `Translate(t) · RotateY(angleY) · RotateZ(angleZ) · Scale(s)` applied to the
identity, multiplied out from left to right in the arithmetic of `F`. -/
def productTRRS {F : Type} [Zero F] [One F] [Add F] [Sub F] [Mul F] (T : Trig F)
    (st : State F) : Mat4 F :=
  (((glm.identity.mul (glm.translation st.translation)).mul
      (glm.rotation T.cosf T.sinf (T.radians st.rotationAngleY) ⟨0, 1, 0⟩)).mul
      (glm.rotation T.cosf T.sinf (T.radians st.rotationAngleZ) ⟨0, 0, 1⟩)).mul
    (glm.scaling st.scaleFactor)

/-- The product with the factors in the opposite order,
`Scale(s) · RotateZ(angleZ) · RotateY(angleY) · Translate(t)` applied to the identity. -/
def productSRRT {F : Type} [Zero F] [One F] [Add F] [Sub F] [Mul F] (T : Trig F)
    (st : State F) : Mat4 F :=
  (((glm.identity.mul (glm.scaling st.scaleFactor)).mul
      (glm.rotation T.cosf T.sinf (T.radians st.rotationAngleZ) ⟨0, 0, 1⟩)).mul
      (glm.rotation T.cosf T.sinf (T.radians st.rotationAngleY) ⟨0, 1, 0⟩)).mul
    (glm.translation st.translation)

/-! ## Frame loop (`run`) -/

/-- What the collaborators deliver in one iteration of the loop: whether `glfwPollEvents` sees
an external close request, and the key states `processInput` then reads. -/
structure Frame where
  closeRequested : Bool
  keys : KeyState

/-- The outcomes of the collaborator calls of one execution of `run`. -/
structure Env (F : Type) where
  /-- `glfwInit()` succeeded. -/
  glfwInitOk : Bool
  /-- `glfwCreateWindow` returned a window. -/
  windowOk : Bool
  /-- `glewInit()` returned `GLEW_OK`. -/
  glewOk : Bool
  /-- What `tinyobj::LoadObj` returns for `mug.obj`. -/
  parsed : LoadResult F
  /-- Info logs of the failed shader compilations and of a failed link, in call order. -/
  shaderLogs : List String
  /-- The frames the collaborators deliver, in order. -/
  frames : List Frame

/-- Record a collaborator call. -/
def State.call {F : Type} (st : State F) (c : Call F) : State F :=
  { st with calls := st.calls ++ [c] }

/-- Lines 198-209: clear, upload the transform, draw the wireframe, present. -/
def drawFrame {F : Type} [Zero F] [One F] [Add F] [Sub F] [Mul F] (T : Trig F) (st : State F) :
    State F :=
  let st := st.call Call.glClearColor
  let st := st.call Call.glClear
  let st := st.call Call.glUseProgram
  let st := updateTransform T st
  let st := st.call Call.glPolygonMode
  let st := st.call Call.glBindVertexArray
  let st := st.call (Call.glDrawElements st.indices.length)
  let st := st.call Call.glBindVertexArray
  st.call Call.glfwSwapBuffers

/-- One iteration of the loop body (lines 195-209). -/
def frameBody {F : Type} [Zero F] [One F] [Add F] [Sub F] [Mul F] [FloatLiterals F] (T : Trig F)
    (f : Frame) (st : State F) : State F :=
  let st := { st.call Call.glfwPollEvents with shouldClose := st.shouldClose || f.closeRequested }
  let st := processInput f.keys st
  drawFrame T st

/-- The loop `while (!glfwWindowShouldClose(window))` over the frames that are delivered.
`none`: the frames ran out while the loop was still running. -/
def frameLoop {F : Type} [Zero F] [One F] [Add F] [Sub F] [Mul F] [FloatLiterals F] (T : Trig F) :
    List Frame → State F → Option (State F)
  | [], st => if st.shouldClose then some st else none
  | f :: rest, st => if st.shouldClose then some st else frameLoop T rest (frameBody T f st)

/-- The diagnostic of a failed `glewInit`. -/
def glewFailureMessage : String := "Error initializing GLEW"

/-- The function `run`.  `none`: undefined behaviour in `loadOBJ`, or the loop is still running
after the last delivered frame. -/
def run {F : Type} [Zero F] [One F] [Add F] [Sub F] [Mul F] [FloatLiterals F] (T : Trig F)
    (env : Env F) (st : State F) : Option (State F) :=
  let st := st.call Call.glfwInit
  if !env.glfwInitOk then some st else
  let st := st.call Call.glfwCreateWindow
  if !env.windowOk then some (st.call Call.glfwTerminate) else
  let st := st.call Call.glfwMakeContextCurrent
  let st := st.call Call.glewInit
  if !env.glewOk then some { st with cerr := st.cerr ++ [glewFailureMessage] } else
  (loadOBJ env.parsed st).bind fun st =>
  let st := { st.call Call.createShaderProgram with cerr := st.cerr ++ env.shaderLogs }
  let st := st.call (Call.setupBuffers st.vertices.length st.indices.length)
  (frameLoop T env.frames st).bind fun st =>
  let st := st.call Call.glDeleteVertexArrays
  let st := st.call Call.glDeleteBuffers
  let st := st.call Call.glDeleteBuffers
  let st := st.call Call.glDeleteProgram
  some (st.call Call.glfwTerminate)

/-- The calls issued only by the frame loop. -/
def Call.isFrameCall {F : Type} : Call F → Bool
  | .glfwPollEvents | .glClearColor | .glClear | .glUseProgram | .glGetUniformLocation
  | .glUniformMatrix4fv _ | .glPolygonMode | .glBindVertexArray | .glDrawElements _
  | .glfwSwapBuffers => true
  | _ => false

/-! ## Auxiliary definitions for the statements -/

/-- The state after the loops of `loadOBJ` have appended the positions `vs` and `n` indices. -/
def appended {F : Type} (st : State F) (vs : List F) (n : Nat) : State F :=
  { st with
    vertices := st.vertices ++ vs
    indices := st.indices ++ (List.range n).map fun i => (st.indices.length + i) % UINT_RANGE }

/-- The list `vs` holds, corner by corner and in order, the three positions that the face
corners `cs` refer to in `attrib.vertices`. -/
def CopiesOf {F : Type} (attrib : attrib_t F) (cs : List index_t) (vs : List F) : Prop :=
  vs.length = 3 * cs.length ∧
    ∀ k j, k < cs.length → j < 3 →
      ∃ c a, cs[k]? = some c ∧ vs[3 * k + j]? = some a ∧
        attrib.vertices[(3 * c.vertex_index + (j : Int)).toNat]? = some a

/-- The key state `keys` with the key `k` released. -/
def release (k : Nat) (keys : KeyState) : KeyState :=
  fun k' => if k' = k then false else keys k'

/-- A key state given by the list of pressed keys. -/
def pressed (ks : List Nat) : KeyState := fun k => decide (k ∈ ks)

/-- Cosine and sine as far as the concrete evaluations below use them: exact at the angle 0,
where `radians 0 = 0`, `cos 0 = 1` and `sin 0 = 0`. -/
def Trig.atZero {F : Type} [Zero F] [One F] [DecidableEq F] : Trig F where
  radians := fun d => d
  cosf := fun a => if a = 0 then 1 else 0
  sinf := fun _ => 0

/-! ## Concrete inputs -/

/-- The index of a face corner that names only a position (`f 1 2 3`): tinyobj leaves the other
two indices at -1. -/
def corner (v : Int) : index_t := ⟨v, -1, -1⟩

/-- A parse result: one triangle over three vertices. -/
def triangleMesh : LoadResult Float32 where
  ret := true
  attrib := ⟨[0, 0, 0, 1, 0, 0, 0, 1, 0]⟩
  shapes := [⟨⟨[corner 0, corner 1, corner 2]⟩⟩]

/-- A parse result: two shapes of one triangle each, sharing the vertices 0 and 2. -/
def quadMesh : LoadResult Float32 where
  ret := true
  attrib := ⟨[0, 0, 0, 1, 0, 0, 1, 1, 0, 0, 1, 0]⟩
  shapes := [⟨⟨[corner 0, corner 1, corner 2]⟩⟩, ⟨⟨[corner 0, corner 2, corner 3]⟩⟩]

/-- A parse result that tinyobj reports as successful although the face `f 1 2 4` names a fourth
vertex and the file has three. -/
def danglingMesh : LoadResult Float32 where
  ret := true
  attrib := ⟨[0, 0, 0, 1, 0, 0, 0, 1, 0]⟩
  shapes := [⟨⟨[corner 0, corner 1, corner 3]⟩⟩]

/-- A parse result with `2^32 + 1` face corners, all naming the single vertex of the file. -/
def hugeMesh : LoadResult Float32 where
  ret := true
  attrib := ⟨[0, 0, 0]⟩
  shapes := [⟨⟨List.replicate 4294967297 (corner 0)⟩⟩]

/-- A failed parse that stopped after reading some data. -/
def failedParse : LoadResult Float32 where
  ret := false
  attrib := ⟨[0, 0, 0, 1]⟩
  shapes := [⟨⟨[corner 0, corner 7]⟩⟩]

/-- The initial state moved to `translation.x = 262144.0f`. -/
def farRightState : State Float32 :=
  { (initialState : State Float32) with translation := ⟨Float32.ofInt 262144, 0, 0⟩ }

/-- The initial state moved to `translation.y = 1.99999988f`, the `float` just below 2. -/
def nearTwoState : State Float32 :=
  { (initialState : State Float32) with translation := ⟨0, Float32.finite (16777215 * 2 ^ 126 : Nat), 0⟩ }

/-- The state with translation `(1, 0, 0)`, both angles 0 and scale factor 2. -/
def shiftedState {F : Type} [Zero F] [One F] [Add F] : State F where
  translation := ⟨1, 0, 0⟩
  rotationAngleZ := 0
  rotationAngleY := 0
  scaleFactor := 1 + 1
  vertices := []
  indices := []
  shouldClose := false
  cerr := []
  calls := []

/-- An execution in which `glfwInit` fails. -/
def glfwInitFails : Env Float32 where
  glfwInitOk := false
  windowOk := true
  glewOk := true
  parsed := triangleMesh
  shaderLogs := []
  frames := []

/-- An execution in which no window can be created. -/
def windowFails : Env Float32 := { glfwInitFails with glfwInitOk := true, windowOk := false }

/-- An execution in which `glewInit` fails. -/
def glewFails : Env Float32 := { glfwInitFails with glfwInitOk := true, glewOk := false }

/-- An execution that draws two frames; in the second, Escape and D are down. -/
def twoFrames : Env Float32 where
  glfwInitOk := true
  windowOk := true
  glewOk := true
  parsed := triangleMesh
  shaderLogs := []
  frames := [⟨false, onlyKey GLFW_KEY_Q⟩, ⟨false, pressed [GLFW_KEY_ESCAPE, GLFW_KEY_D]⟩,
    ⟨false, onlyKey GLFW_KEY_Q⟩]

/-- The initial state with the scale factor `-2.5f`. -/
def negativeScaleState : State Float32 :=
  { (initialState : State Float32) with scaleFactor := Float32.finite (-(5 * 2 ^ 148 : Nat)) }

/-- The value `cosf` returns for a quarter turn, `cosf(glm::radians(90.0f)) = -4.371139e-08f`
(`0xB33BBD2E`); `sinf` returns `1.0f` there. -/
def quarterTurnCos : Float32 := Float32.finite (-(12303662 * 2 ^ 101 : Nat))

/-! ## Theorems: mesh importer -/

theorem readPosition_eq {F : Type} (attrib : attrib_t F) (index : index_t) (j : Nat)
    (hj : j < 3) (h : ValidCorner attrib index) :
    ∃ a, readPosition attrib index j = some a ∧
      attrib.vertices[(3 * index.vertex_index + (j : Int)).toNat]? = some a := by
  obtain ⟨h0, hlen, hmax⟩ := h
  have hlt : (3 * index.vertex_index + (j : Int)).toNat < attrib.vertices.length := by
    omega
  refine ⟨attrib.vertices[(3 * index.vertex_index + (j : Int)).toNat], ?_, ?_⟩
  · unfold readPosition
    have hc : 0 ≤ 3 * index.vertex_index + (j : Int) ∧
        3 * index.vertex_index + (j : Int) ≤ INT_MAX := by
      constructor <;> omega
    simp only [hc, and_self, if_true]
    exact List.getElem?_eq_getElem hlt
  · exact List.getElem?_eq_getElem hlt

theorem loadCorners_spec {F : Type} (attrib : attrib_t F) (cs : List index_t)
    (hv : ∀ c ∈ cs, ValidCorner attrib c) (st : State F) :
    ∃ vs, CopiesOf attrib cs vs ∧ loadCorners attrib cs st = some (appended st vs cs.length) := by
  induction cs generalizing st with
  | nil =>
    refine ⟨[], ⟨rfl, ?_⟩, ?_⟩
    · intro k j hk; simp at hk
    · simp [loadCorners, appended]
  | cons c rest ih =>
    have hc := hv c (List.mem_cons_self _ _)
    obtain ⟨a0, hr0, ha0⟩ := readPosition_eq attrib c 0 (by decide) hc
    obtain ⟨a1, hr1, ha1⟩ := readPosition_eq attrib c 1 (by decide) hc
    obtain ⟨a2, hr2, ha2⟩ := readPosition_eq attrib c 2 (by decide) hc
    have hpush : pushCorner attrib st c = some { st with
        vertices := st.vertices ++ [a0, a1, a2]
        indices := st.indices ++ [st.indices.length % UINT_RANGE] } := by
      simp [pushCorner, hr0, hr1, hr2]
    obtain ⟨vs, ⟨hlen, hcopy⟩, hrun⟩ := ih (fun c hc => hv c (List.mem_cons_of_mem _ hc))
      { st with
        vertices := st.vertices ++ [a0, a1, a2]
        indices := st.indices ++ [st.indices.length % UINT_RANGE] }
    refine ⟨[a0, a1, a2] ++ vs, ⟨?_, ?_⟩, ?_⟩
    · simp [hlen]; omega
    · intro k j hk hj
      cases k with
      | zero =>
        refine ⟨c, ?_⟩
        interval_cases j
        · exact ⟨a0, by simp, by simp, ha0⟩
        · exact ⟨a1, by simp, by simp, ha1⟩
        · exact ⟨a2, by simp, by simp, ha2⟩
      | succ k =>
        obtain ⟨c', a, h1, h2, h3⟩ := hcopy k j (by simpa using hk) hj
        refine ⟨c', a, by simpa using h1, ?_, h3⟩
        have : 3 * (k + 1) + j = 3 * k + j + 3 := by ring
        rw [this]
        simpa using h2
    · simp only [loadCorners, hpush, Option.some_bind, hrun, appended]
      congr 1
      simp only [List.length_cons, List.range_succ_eq_map, List.map_cons, List.map_map,
        List.append_assoc, List.length_append, List.length_singleton, List.singleton_append,
        Nat.add_zero, State.mk.injEq, true_and, and_true]
      congr 2
      apply List.map_congr_left
      intro i _
      simp only [Function.comp, List.length_nil]
      congr 1
      omega

theorem appended_appended {F : Type} (st : State F) (vs1 vs2 : List F) (n1 n2 : Nat) :
    appended (appended st vs1 n1) vs2 n2 = appended st (vs1 ++ vs2) (n1 + n2) := by
  simp only [appended, List.append_assoc, List.length_append, List.length_map, List.length_range,
    State.mk.injEq, true_and, and_true]
  rw [List.range_add, List.map_append, List.map_map]
  congr 2
  apply List.map_congr_left
  intro i _
  simp only [Function.comp]
  congr 1
  omega

theorem loadShapes_spec {F : Type} (attrib : attrib_t F) (shapes : List shape_t)
    (hv : ∀ c ∈ faceCorners shapes, ValidCorner attrib c) (st : State F) :
    ∃ vs, CopiesOf attrib (faceCorners shapes) vs ∧
      loadShapes attrib shapes st = some (appended st vs (faceCorners shapes).length) := by
  induction shapes generalizing st with
  | nil =>
    refine ⟨[], ⟨rfl, ?_⟩, ?_⟩
    · intro k j hk; simp [faceCorners] at hk
    · simp [loadShapes, appended, faceCorners]
  | cons shape rest ih =>
    have hsplit : faceCorners (shape :: rest) = shape.mesh.indices ++ faceCorners rest := by
      simp [faceCorners]
    rw [hsplit] at hv ⊢
    obtain ⟨vs1, ⟨hlen1, hcopy1⟩, hrun1⟩ := loadCorners_spec attrib shape.mesh.indices
      (fun c hc => hv c (List.mem_append_left _ hc)) st
    obtain ⟨vs2, ⟨hlen2, hcopy2⟩, hrun2⟩ := ih (fun c hc => hv c (List.mem_append_right _ hc))
      (appended st vs1 shape.mesh.indices.length)
    refine ⟨vs1 ++ vs2, ⟨?_, ?_⟩, ?_⟩
    · simp [hlen1, hlen2]; omega
    · intro k j hk hj
      by_cases hlt : k < shape.mesh.indices.length
      · obtain ⟨c, a, h1, h2, h3⟩ := hcopy1 k j hlt hj
        refine ⟨c, a, ?_, ?_, h3⟩
        · rw [List.getElem?_append_left hlt]; exact h1
        · rw [List.getElem?_append_left (by omega)]; exact h2
      · have hk2 : k - shape.mesh.indices.length < (faceCorners rest).length := by
          simp at hk; omega
        obtain ⟨c, a, h1, h2, h3⟩ := hcopy2 _ j hk2 hj
        refine ⟨c, a, ?_, ?_, h3⟩
        · rw [List.getElem?_append_right (by omega)]; exact h1
        · rw [List.getElem?_append_right (by omega)]
          have : 3 * k + j - vs1.length = 3 * (k - shape.mesh.indices.length) + j := by omega
          rw [this]; exact h2
    · simp only [loadShapes, hrun1, Option.some_bind, hrun2, List.length_append]
      rw [appended_appended]

/-- On a successful parse with valid corners, `loadOBJ` returns, and appends the copied
positions and the wrapped running sizes to the two buffers. -/
theorem loadOBJ_success {F : Type} (r : LoadResult F) (st : State F) (hret : r.ret = true)
    (hv : ∀ c ∈ faceCorners r.shapes, ValidCorner r.attrib c) :
    ∃ vs, CopiesOf r.attrib (faceCorners r.shapes) vs ∧
      loadOBJ r st = some (appended st vs (faceCorners r.shapes).length) := by
  obtain ⟨vs, h1, h2⟩ := loadShapes_spec r.attrib r.shapes hv st
  exact ⟨vs, h1, by simp [loadOBJ, hret, h2]⟩

theorem appended_indices_getElem? {F : Type} (st : State F) (vs : List F) (n i : Nat)
    (hi : st.indices = []) (hlt : i < n) :
    (appended st vs n).indices[i]? = some (i % UINT_RANGE) := by
  simp [appended, hi, List.getElem?_range hlt]

/-- C1 (amended). For a successfully parsed mesh whose `F` face corners all have a valid
`vertex_index`, `loadOBJ` started on empty buffers returns with `len(vertices) = 3 * F`,
`len(indices) = F` and `indices[i] = i mod 2^32` for every `i < F` (so `indices[i] = i` for
every `i < 2^32`); hence `len(indices) = len(vertices) / 3`. -/
theorem loadOBJ_buffer_sizes {F : Type} (r : LoadResult F) (st : State F)
    (hret : r.ret = true)
    (hvalid : ∀ c ∈ faceCorners r.shapes, ValidCorner r.attrib c)
    (hvertices : st.vertices = []) (hindices : st.indices = []) :
    ∃ st', loadOBJ r st = some st' ∧
      st'.vertices.length = 3 * (faceCorners r.shapes).length ∧
      st'.indices.length = (faceCorners r.shapes).length ∧
      (∀ i, i < (faceCorners r.shapes).length → st'.indices[i]? = some (i % UINT_RANGE)) ∧
      (∀ i, i < (faceCorners r.shapes).length → i < UINT_RANGE → st'.indices[i]? = some i) ∧
      st'.indices.length = st'.vertices.length / 3 := by
  obtain ⟨vs, ⟨hlen, _⟩, hrun⟩ := loadOBJ_success r st hret hvalid
  have hV : (appended st vs (faceCorners r.shapes).length).vertices.length =
      3 * (faceCorners r.shapes).length := by simp [appended, hvertices, hlen]
  have hI : (appended st vs (faceCorners r.shapes).length).indices.length =
      (faceCorners r.shapes).length := by simp [appended, hindices]
  refine ⟨_, hrun, hV, hI, ?_, ?_, ?_⟩
  · intro i hi
    exact appended_indices_getElem? st vs _ i hindices hi
  · intro i hi hsmall
    rw [appended_indices_getElem? st vs _ i hindices hi, Nat.mod_eq_of_lt hsmall]
  · rw [hV, hI]; omega

/-- Witness: one triangle over three vertices. -/
theorem loadOBJ_buffer_sizes_witness :
    ∃ st', loadOBJ triangleMesh (initialState : State Float32) = some st' ∧
      st'.vertices.length = 3 * 3 ∧ st'.indices.length = 3 ∧
      (∀ i, i < 3 → st'.indices[i]? = some (i % UINT_RANGE)) ∧
      (∀ i, i < 3 → i < UINT_RANGE → st'.indices[i]? = some i) ∧
      st'.indices.length = st'.vertices.length / 3 :=
  loadOBJ_buffer_sizes triangleMesh initialState rfl (by decide) rfl rfl

/-- C1 (counterexample). A successfully parsed mesh with `2^32 + 1` valid face corners:
`loadOBJ` returns with `indices[2^32] = 0`, not `2^32`. -/
theorem loadOBJ_index_wraps :
    (faceCorners (hugeMesh.shapes)).length = 4294967297 ∧
    (∀ c ∈ faceCorners hugeMesh.shapes, ValidCorner hugeMesh.attrib c) ∧
    ∃ st', loadOBJ hugeMesh (initialState : State Float32) = some st' ∧
      st'.indices[4294967296]? = some 0 := by
  have hlen : (faceCorners (hugeMesh.shapes)).length = 4294967297 := by
    simp only [hugeMesh, faceCorners, List.map_cons, List.map_nil, List.flatten_cons,
      List.flatten_nil, List.append_nil, List.length_replicate]
  have hvalid : ∀ c ∈ faceCorners hugeMesh.shapes, ValidCorner hugeMesh.attrib c := by
    intro c hc
    simp only [hugeMesh, faceCorners, List.map_cons, List.map_nil, List.flatten_cons,
      List.flatten_nil, List.append_nil] at hc
    rw [List.eq_of_mem_replicate hc]
    decide
  refine ⟨hlen, hvalid, ?_⟩
  obtain ⟨vs, _, hrun⟩ := loadOBJ_success hugeMesh initialState rfl hvalid
  refine ⟨_, hrun, ?_⟩
  rw [appended_indices_getElem? _ vs _ 4294967296 rfl (by rw [hlen]; decide)]
  rfl

/-- C2 (amended). For a successfully parsed mesh whose face corners all have a valid
`vertex_index`, `loadOBJ` started on an empty vertex buffer returns, and with `c_0 … c_{F-1}`
the concatenation in shape order of every shape's `mesh.indices`:
`vertices[3*k + j] = attrib.vertices[3*c_k.vertex_index + j]` for every `k < F`, `j < 3`;
the buffer has `3 * F` entries, so corners sharing a `vertex_index` give separate, equal
entries. -/
theorem loadOBJ_copies_positions {F : Type} (r : LoadResult F) (st : State F)
    (hret : r.ret = true)
    (hvalid : ∀ c ∈ faceCorners r.shapes, ValidCorner r.attrib c)
    (hvertices : st.vertices = []) :
    ∃ st', loadOBJ r st = some st' ∧
      st'.vertices.length = 3 * (faceCorners r.shapes).length ∧
      (∀ k j, k < (faceCorners r.shapes).length → j < 3 →
        ∃ c a, (faceCorners r.shapes)[k]? = some c ∧ st'.vertices[3 * k + j]? = some a ∧
          r.attrib.vertices[(3 * c.vertex_index + (j : Int)).toNat]? = some a) ∧
      (∀ k k' j c c', j < 3 → (faceCorners r.shapes)[k]? = some c →
        (faceCorners r.shapes)[k']? = some c' → c.vertex_index = c'.vertex_index →
        st'.vertices[3 * k + j]? = st'.vertices[3 * k' + j]? ∧
          (st'.vertices[3 * k + j]?).isSome = true) := by
  obtain ⟨vs, ⟨hlen, hcopy⟩, hrun⟩ := loadOBJ_success r st hret hvalid
  have hvs : (appended st vs (faceCorners r.shapes).length).vertices = vs := by
    simp [appended, hvertices]
  refine ⟨_, hrun, ?_, ?_, ?_⟩
  · rw [hvs, hlen]
  · rw [hvs]; exact hcopy
  · rw [hvs]
    intro k k' j c c' hj hk hk' heq
    have hklt : k < (faceCorners r.shapes).length := by
      by_contra hne
      rw [List.getElem?_eq_none (by omega)] at hk
      cases hk
    have hklt' : k' < (faceCorners r.shapes).length := by
      by_contra hne
      rw [List.getElem?_eq_none (by omega)] at hk'
      cases hk'
    obtain ⟨d, a, h1, h2, h3⟩ := hcopy k j hklt hj
    obtain ⟨d', a', h1', h2', h3'⟩ := hcopy k' j hklt' hj
    rw [hk] at h1; cases h1
    rw [hk'] at h1'; cases h1'
    rw [heq, h3'] at h3
    cases h3
    rw [h2, h2']
    exact ⟨rfl, rfl⟩

/-- Witness: two triangles sharing an edge. -/
theorem loadOBJ_copies_positions_witness :
    ∃ st', loadOBJ quadMesh (initialState : State Float32) = some st' ∧
      st'.vertices.length = 3 * (faceCorners quadMesh.shapes).length ∧
      (∀ k j, k < (faceCorners quadMesh.shapes).length → j < 3 →
        ∃ c a, (faceCorners quadMesh.shapes)[k]? = some c ∧ st'.vertices[3 * k + j]? = some a ∧
          quadMesh.attrib.vertices[(3 * c.vertex_index + (j : Int)).toNat]? = some a) ∧
      (∀ k k' j c c', j < 3 → (faceCorners quadMesh.shapes)[k]? = some c →
        (faceCorners quadMesh.shapes)[k']? = some c' → c.vertex_index = c'.vertex_index →
        st'.vertices[3 * k + j]? = st'.vertices[3 * k' + j]? ∧
          (st'.vertices[3 * k + j]?).isSome = true) :=
  loadOBJ_copies_positions quadMesh initialState rfl (by decide) rfl

/-- C2 (counterexample). A successfully parsed mesh in which one face corner points past the
end of `attrib.vertices`: the copy loop reads out of range, so no vertex buffer results. -/
theorem loadOBJ_out_of_range :
    danglingMesh.ret = true ∧ loadOBJ danglingMesh (initialState : State Float32) = none := by
  decide

/-- C3. When the parse fails, `loadOBJ` returns after writing its diagnostic to the error
stream; the vertex and index buffers (and every other variable) are exactly as before, so both
buffers are empty when they were empty before, whatever the parser left in `attrib` and
`shapes`. -/
theorem loadOBJ_parse_failure {F : Type} (r : LoadResult F) (st : State F)
    (hret : r.ret = false) :
    loadOBJ r st = some { st with cerr := st.cerr ++ [loadFailureMessage] } ∧
    ∃ st', loadOBJ r st = some st' ∧ st'.vertices = st.vertices ∧ st'.indices = st.indices ∧
      st'.cerr = st.cerr ++ [loadFailureMessage] ∧
      (st.vertices = [] → st.indices = [] → st'.vertices = [] ∧ st'.indices = []) := by
  have h : loadOBJ r st = some { st with cerr := st.cerr ++ [loadFailureMessage] } := by
    simp [loadOBJ, hret]
  exact ⟨h, _, h, rfl, rfl, rfl, fun hv hi => ⟨hv, hi⟩⟩

/-- Witness: a failed parse that left data behind, on the initial state. -/
theorem loadOBJ_parse_failure_witness :
    loadOBJ failedParse (initialState : State Float32) =
      some { (initialState : State Float32) with cerr := [loadFailureMessage] } ∧
    ∃ st', loadOBJ failedParse (initialState : State Float32) = some st' ∧
      st'.vertices = [] ∧ st'.indices = [] ∧ st'.cerr = [loadFailureMessage] := by
  obtain ⟨h, st', h1, _, _, h4, h5⟩ :=
    loadOBJ_parse_failure failedParse (initialState : State Float32) rfl
  exact ⟨h, st', h1, (h5 rfl rfl).1, (h5 rfl rfl).2, h4⟩

/-! ## Theorems: binary32 arithmetic -/

namespace Float32

theorem excessBits_fuel (f1 : Nat) : ∀ (f2 a : Nat), a < 2 ^ (24 + f1) → a < 2 ^ (24 + f2) →
    excessBits f1 a = excessBits f2 a := by
  induction f1 with
  | zero =>
    intro f2 a h1 _
    cases f2 with
    | zero => rfl
    | succ f2 =>
      have h1' : a < 2 ^ 24 := h1
      simp only [excessBits, h1', if_true]
  | succ f1 ih =>
    intro f2 a h1 h2
    cases f2 with
    | zero =>
      have h2' : a < 2 ^ 24 := h2
      simp only [excessBits, h2', if_true]
    | succ f2 =>
      simp only [excessBits]
      by_cases h : a < 2 ^ 24
      · simp only [h, if_true]
      · simp only [h, if_false]
        have e1 : 2 ^ (24 + (f1 + 1)) = 2 * 2 ^ (24 + f1) := by ring
        have e2 : 2 ^ (24 + (f2 + 1)) = 2 * 2 ^ (24 + f2) := by ring
        rw [ih f2 (a / 2) (by omega) (by omega)]

theorem excessBits_small (a : Nat) (h : a < 2 ^ 24) : excessBits a a = 0 := by
  cases a with
  | zero => rfl
  | succ a =>
    have h' : a + 1 < 2 ^ 24 := h
    simp only [excessBits, h', if_true]

theorem lt_two_pow_add (a : Nat) : a < 2 ^ (24 + a) :=
  lt_of_lt_of_le (Nat.lt_two_pow a) (Nat.pow_le_pow_right (by decide) (by omega))

theorem excessBits_double (a : Nat) (h : 2 ^ 23 ≤ a) :
    excessBits (2 * a) (2 * a) = excessBits a a + 1 := by
  obtain ⟨b, hb⟩ : ∃ b, 2 * a = b + 1 := ⟨2 * a - 1, by omega⟩
  have hge : ¬ (b + 1 < 2 ^ 24) := by omega
  rw [hb]
  simp only [excessBits, hge, if_false]
  have hdiv : (b + 1) / 2 = a := by omega
  rw [hdiv]
  have hlt : a < 2 ^ (24 + b) :=
    lt_of_lt_of_le (lt_two_pow_add a) (Nat.pow_le_pow_right (by decide) (by omega))
  rw [excessBits_fuel b a a hlt (lt_two_pow_add a)]

theorem max_excessBits_shift (a e : Nat) :
    max (excessBits (a * 2 ^ e) (a * 2 ^ e)) e = excessBits a a + e := by
  induction e with
  | zero => simp
  | succ e ih =>
    have hmul : a * 2 ^ (e + 1) = 2 * (a * 2 ^ e) := by ring
    rw [hmul]
    by_cases h : 2 ^ 23 ≤ a * 2 ^ e
    · rw [excessBits_double _ h]
      omega
    · have h1 : excessBits (a * 2 ^ e) (a * 2 ^ e) = 0 := excessBits_small _ (by omega)
      have h2 : excessBits (2 * (a * 2 ^ e)) (2 * (a * 2 ^ e)) = 0 :=
        excessBits_small _ (by omega)
      rw [h1] at ih
      rw [h2]
      omega

/-- Scaling the exact value by a power of two that the unit absorbs does not change the rounded
result. -/
theorem roundMagnitude_shift (a e : Nat) : roundMagnitude (a * 2 ^ e) e = roundMagnitude a 0 := by
  unfold roundMagnitude
  simp only [max_excessBits_shift, Nat.zero_le, max_eq_left, Nat.add_sub_cancel, Nat.sub_zero]
  have hpow : 2 ^ (excessBits a a + e) = 2 ^ excessBits a a * 2 ^ e := by ring
  have hpos : 0 < 2 ^ e := Nat.pow_pos (by decide)
  have hq : a * 2 ^ e / 2 ^ (excessBits a a + e) = a / 2 ^ excessBits a a := by
    rw [hpow, Nat.mul_div_mul_right _ _ hpos]
  have hr : a * 2 ^ e % 2 ^ (excessBits a a + e) = a % 2 ^ excessBits a a * 2 ^ e := by
    rw [hpow, Nat.mul_mod_mul_right]
  rw [hq, hr, hpow]
  have c1 : (2 ^ excessBits a a * 2 ^ e < 2 * (a % 2 ^ excessBits a a * 2 ^ e)) ↔
      (2 ^ excessBits a a < 2 * (a % 2 ^ excessBits a a)) := by
    rw [← Nat.mul_assoc]
    exact Nat.mul_lt_mul_right hpos
  have c2 : (2 ^ excessBits a a * 2 ^ e = 2 * (a % 2 ^ excessBits a a * 2 ^ e)) ↔
      (2 ^ excessBits a a = 2 * (a % 2 ^ excessBits a a)) := by
    rw [← Nat.mul_assoc]
    exact Nat.mul_left_inj (by omega)
  simp only [c1, c2]

theorem round_shift (k : Int) (e : Nat) : round (k * (2 ^ e : Nat)) e = round k 0 := by
  unfold round
  have habs : (k * ((2 ^ e : Nat) : Int)).natAbs = k.natAbs * 2 ^ e := by
    rw [Int.natAbs_mul, Int.natAbs_ofNat]
  have hpos : (0 : Int) < ((2 ^ e : Nat) : Int) := by
    exact_mod_cast Nat.pow_pos (by decide)
  have hsign : (k * ((2 ^ e : Nat) : Int) < 0) ↔ (k < 0) := by
    constructor
    · intro h
      by_contra hk
      have : 0 ≤ k * ((2 ^ e : Nat) : Int) := Int.mul_nonneg (by omega) (le_of_lt hpos)
      omega
    · intro h
      exact Int.mul_neg_of_neg_of_pos h hpos
  simp only [habs, roundMagnitude_shift, hsign]

theorem one_mul_of_representable (x : Float32) (h : Representable x) : 1 * x = x := by
  obtain ⟨k, rfl, hk⟩ := h
  show round (((2 ^ 149 : Nat) : Int) * k) 149 = finite k
  rw [Int.mul_comm, round_shift, hk]

theorem zero_mul_finite (k : Int) : (0 : Float32) * finite k = 0 := by
  show round (0 * k) 149 = finite 0
  rw [Int.zero_mul]
  decide

/-- The literal `0.01f` is the binary32 number nearest to 1/100: it lies below 1/100, its
successor above, and it is the closer of the two. -/
theorem lit_0_01_nearest :
    toRat (FloatLiterals.lit_0_01 : Float32) = 10737418 / 2 ^ 30 ∧
    (10737418 / 2 ^ 30 : ℚ) < 1 / 100 ∧ (1 / 100 : ℚ) < 10737419 / 2 ^ 30 ∧
    (1 / 100 : ℚ) - 10737418 / 2 ^ 30 < 10737419 / 2 ^ 30 - 1 / 100 := by
  refine ⟨?_, by norm_num, by norm_num, by norm_num⟩
  simp only [FloatLiterals.lit_0_01, toRat]
  push_cast
  rw [div_eq_div_iff (by positivity) (by positivity)]
  ring

end Float32

namespace Float32

theorem div_pow_excessBits_lt (fuel : Nat) : ∀ a : Nat, a < 2 ^ (24 + fuel) →
    a / 2 ^ excessBits fuel a < 2 ^ 24 := by
  induction fuel with
  | zero =>
    intro a h
    have h' : a < 2 ^ 24 := h
    simp only [excessBits, pow_zero, Nat.div_one]
    exact h'
  | succ fuel ih =>
    intro a h
    simp only [excessBits]
    by_cases hs : a < 2 ^ 24
    · simp only [hs, if_true, pow_zero, Nat.div_one]
    · simp only [hs, if_false]
      have e1 : 2 ^ (24 + (fuel + 1)) = 2 * 2 ^ (24 + fuel) := by ring
      have h2 : a / 2 < 2 ^ (24 + fuel) := by omega
      have := ih (a / 2) h2
      rw [pow_succ, Nat.mul_comm, ← Nat.div_div_eq_div_mul]
      exact this

/-- The rounded magnitude has a significand of at most 24 bits. -/
theorem roundMagnitude_form (a e : Nat) :
    ∃ q j, roundMagnitude a e = q * 2 ^ j ∧ q ≤ 2 ^ 24 := by
  have hq : a / 2 ^ max (excessBits a a) e < 2 ^ 24 := by
    have h1 := div_pow_excessBits_lt a a (lt_two_pow_add a)
    have h2 : 2 ^ excessBits a a ≤ 2 ^ max (excessBits a a) e :=
      Nat.pow_le_pow_right (by decide) (le_max_left _ _)
    exact lt_of_le_of_lt (Nat.div_le_div_left h2 (Nat.pow_pos (by decide))) h1
  unfold roundMagnitude
  simp only
  split_ifs
  · exact ⟨_, _, rfl, hq⟩
  · exact ⟨_, _, rfl, le_of_lt hq⟩

theorem excessBits_le_of_form (q j : Nat) (hq : q ≤ 2 ^ 24) :
    ∃ i, excessBits (q * 2 ^ j) (q * 2 ^ j) + i = (if q < 2 ^ 24 then j else 24 + j) := by
  by_cases h : q < 2 ^ 24
  · simp only [h, if_true]
    have hm := max_excessBits_shift q j
    rw [excessBits_small q h] at hm
    exact ⟨j - excessBits (q * 2 ^ j) (q * 2 ^ j), by omega⟩
  · simp only [h, if_false]
    have hq' : q = 2 ^ 24 := by omega
    have hm := max_excessBits_shift 1 (24 + j)
    have h1 : excessBits 1 1 = 0 := by decide
    have he : 1 * 2 ^ (24 + j) = q * 2 ^ j := by rw [hq']; ring
    rw [he, h1] at hm
    exact ⟨24 + j - excessBits (q * 2 ^ j) (q * 2 ^ j), by omega⟩

/-- A magnitude with a significand of at most 24 bits is left alone by rounding. -/
theorem roundMagnitude_fixed (q j : Nat) (hq : q ≤ 2 ^ 24) :
    roundMagnitude (q * 2 ^ j) 0 = q * 2 ^ j := by
  obtain ⟨i, hi⟩ := excessBits_le_of_form q j hq
  have hdvd : 2 ^ excessBits (q * 2 ^ j) (q * 2 ^ j) ∣ q * 2 ^ j := by
    by_cases h : q < 2 ^ 24
    · simp only [h, if_true] at hi
      exact Dvd.dvd.mul_left (pow_dvd_pow 2 (by omega)) q
    · simp only [h, if_false] at hi
      have hq' : q = 2 ^ 24 := by omega
      have he : q * 2 ^ j = 2 ^ (24 + j) := by rw [hq']; ring
      rw [he] at hi ⊢
      exact pow_dvd_pow 2 (by omega)
  generalize q * 2 ^ j = m at hdvd ⊢
  unfold roundMagnitude
  simp only [Nat.zero_le, max_eq_left, Nat.sub_zero]
  have hr : m % 2 ^ excessBits m m = 0 := Nat.mod_eq_zero_of_dvd hdvd
  have hpos : 0 < 2 ^ excessBits m m := Nat.pow_pos (by decide)
  have c1 : ¬ (2 ^ excessBits m m < 2 * 0) := by omega
  have c2 : ¬ (2 ^ excessBits m m = 2 * 0) := by omega
  simp only [hr, c1, c2, false_and, or_self, if_false]
  exact Nat.div_mul_cancel hdvd

/-- Rounding is idempotent: what `round` returns is not a number or a binary32 number. -/
theorem rounded_round (n : Int) (e : Nat) : Rounded (round n e) := by
  obtain ⟨q, j, hform, hq⟩ := roundMagnitude_form n.natAbs e
  unfold round
  simp only
  by_cases hov : 2 ^ 128 * 2 ^ 149 ≤ roundMagnitude n.natAbs e
  · left; simp only [hov, if_true]
  · right
    simp only [hov, if_false]
    have hfix : roundMagnitude (roundMagnitude n.natAbs e) 0 = roundMagnitude n.natAbs e := by
      rw [hform]; exact roundMagnitude_fixed q j hq
    generalize roundMagnitude n.natAbs e = m at hov hfix
    refine ⟨_, rfl, ?_⟩
    unfold round
    by_cases hn : n < 0
    · simp only [hn, if_true, Int.natAbs_neg, Int.natAbs_ofNat, hfix, hov, if_false]
      rcases Nat.eq_zero_or_pos m with h0 | hpos
      · subst h0; simp
      · have : -(m : Int) < 0 := by omega
        simp only [this, if_true]
    · simp only [hn, if_false, Int.natAbs_ofNat, hfix, hov]
      have : ¬ ((m : Int) < 0) := by omega
      simp only [this, if_false]

theorem rounded_add (a b : Float32) : Rounded (a + b) := by
  cases a <;> cases b
  · exact rounded_round _ _
  all_goals exact Or.inl rfl

theorem rounded_sub (a b : Float32) : Rounded (a - b) := by
  cases a <;> cases b
  · exact rounded_round _ _
  all_goals exact Or.inl rfl

theorem rounded_mul (a b : Float32) : Rounded (a * b) := by
  cases a <;> cases b
  · exact rounded_round _ _
  all_goals exact Or.inl rfl

theorem rounded_zero : Rounded 0 := Or.inr ⟨0, rfl, by decide⟩

theorem rounded_one : Rounded 1 := Or.inr ⟨_, rfl, by decide⟩

theorem mul_comm_float (a b : Float32) : a * b = b * a := by
  cases a <;> cases b
  · show round _ 149 = round _ 149
    rw [Int.mul_comm]
  all_goals rfl

theorem add_zero_of_rounded (x : Float32) (h : Rounded x) : x + 0 = x := by
  rcases h with rfl | ⟨k, rfl, hk⟩
  · rfl
  · show round (k + 0) 0 = finite k
    rw [Int.add_zero, hk]

theorem zero_add_of_rounded (x : Float32) (h : Rounded x) : 0 + x = x := by
  rcases h with rfl | ⟨k, rfl, hk⟩
  · rfl
  · show round (0 + k) 0 = finite k
    rw [Int.zero_add, hk]

theorem mul_one_of_rounded (x : Float32) (h : Rounded x) : x * 1 = x := by
  rcases h with rfl | hrep
  · rfl
  · rw [mul_comm_float]; exact one_mul_of_representable x hrep

theorem mul_zero_of_isFinite (x : Float32) (h : x.isFinite = true) : x * 0 = 0 := by
  cases x with
  | finite k => rw [mul_comm_float]; exact zero_mul_finite k
  | nonfinite => cases h

theorem isFinite_of_add (a b : Float32) (h : (a + b).isFinite = true) :
    a.isFinite = true ∧ b.isFinite = true := by
  cases a <;> cases b
  · exact ⟨rfl, rfl⟩
  all_goals cases h

theorem isFinite_of_mul (a b : Float32) (h : (a * b).isFinite = true) :
    a.isFinite = true ∧ b.isFinite = true := by
  cases a <;> cases b
  · exact ⟨rfl, rfl⟩
  all_goals cases h

end Float32

/-! ## Theorems: input mapper -/

theorem State.eq_of_fields {F : Type} (a b : State F)
    (h1 : a.translation.x = b.translation.x) (h2 : a.translation.y = b.translation.y)
    (h3 : a.translation.z = b.translation.z) (h4 : a.rotationAngleZ = b.rotationAngleZ)
    (h5 : a.rotationAngleY = b.rotationAngleY) (h6 : a.scaleFactor = b.scaleFactor)
    (h7 : a.vertices = b.vertices) (h8 : a.indices = b.indices)
    (h9 : a.shouldClose = b.shouldClose) (h10 : a.cerr = b.cerr) (h11 : a.calls = b.calls) :
    a = b := by
  obtain ⟨⟨ax, ay, az⟩, _, _, _, _, _, _, _, _⟩ := a
  obtain ⟨⟨bx, _, _⟩, _, _, _, _, _, _, _, _⟩ := b
  simp only at h1 h2 h3 h4 h5 h6 h7 h8 h9 h10 h11
  subst h1 h2 h3 h4 h5 h6 h7 h8 h9 h10 h11
  rfl

/-- The effect of `processInput` spelled out field by field. -/
theorem processInput_eq {F : Type} [Add F] [Sub F] [FloatLiterals F] (keys : KeyState)
    (st : State F) :
    processInput keys st =
      { st with
        translation :=
          { x := whenPressed (keys GLFW_KEY_D) (fun x => x + FloatLiterals.lit_0_01)
              (whenPressed (keys GLFW_KEY_A) (fun x => x - FloatLiterals.lit_0_01)
                st.translation.x)
            y := whenPressed (keys GLFW_KEY_S) (fun y => y - FloatLiterals.lit_0_01)
              (whenPressed (keys GLFW_KEY_W) (fun y => y + FloatLiterals.lit_0_01)
                st.translation.y)
            z := st.translation.z }
        scaleFactor := whenPressed (keys GLFW_KEY_F) (fun s => s - FloatLiterals.lit_0_01)
          (whenPressed (keys GLFW_KEY_R) (fun s => s + FloatLiterals.lit_0_01) st.scaleFactor)
        rotationAngleZ := whenPressed (keys GLFW_KEY_E) (fun a => a - FloatLiterals.lit_30)
          (whenPressed (keys GLFW_KEY_Q) (fun a => a + FloatLiterals.lit_30) st.rotationAngleZ)
        rotationAngleY := whenPressed (keys GLFW_KEY_C) (fun a => a - FloatLiterals.lit_30)
          (whenPressed (keys GLFW_KEY_Z) (fun a => a + FloatLiterals.lit_30) st.rotationAngleY)
        shouldClose := keys GLFW_KEY_ESCAPE || st.shouldClose } := by
  apply State.eq_of_fields
  all_goals
    simp only [processInput, whenPressed, apply_ite State.translation, apply_ite Vec3.x,
      apply_ite Vec3.y, apply_ite Vec3.z, apply_ite State.rotationAngleZ,
      apply_ite State.rotationAngleY, apply_ite State.scaleFactor, apply_ite State.vertices,
      apply_ite State.indices, apply_ite State.shouldClose, apply_ite State.cerr,
      apply_ite State.calls, ite_self]
  cases keys GLFW_KEY_ESCAPE <;> rfl

/-- One frame with only the key `k` pressed, for each of the ten transform keys. -/
theorem processInput_onlyKey {F : Type} [Add F] [Sub F] [FloatLiterals F] (st : State F) :
    processInput (onlyKey GLFW_KEY_D) st =
      { st with translation :=
          { st.translation with x := st.translation.x + FloatLiterals.lit_0_01 } } ∧
    processInput (onlyKey GLFW_KEY_Q) st =
      { st with rotationAngleZ := st.rotationAngleZ + FloatLiterals.lit_30 } ∧
    processInput (onlyKey GLFW_KEY_E) st =
      { st with rotationAngleZ := st.rotationAngleZ - FloatLiterals.lit_30 } ∧
    processInput (onlyKey GLFW_KEY_Z) st =
      { st with rotationAngleY := st.rotationAngleY + FloatLiterals.lit_30 } ∧
    processInput (onlyKey GLFW_KEY_C) st =
      { st with rotationAngleY := st.rotationAngleY - FloatLiterals.lit_30 } := by
  refine ⟨?_, ?_, ?_, ?_, ?_⟩ <;> rw [processInput_eq] <;> rfl

/-- Iterating an update of one field of the state. -/
theorem iterate_update {F : Type} (step : State F → State F) (g : F → F)
    (upd : State F → F → State F) (get : State F → F)
    (hstep : ∀ st, step st = upd st (g (get st)))
    (hget : ∀ st v, get (upd st v) = v) (hupd : ∀ st v w, upd (upd st v) w = upd st w)
    (n : Nat) (st : State F) (hn : 0 < n) :
    step^[n] st = upd st (g^[n] (get st)) := by
  induction n generalizing st with
  | zero => omega
  | succ n ih =>
    rcases Nat.eq_zero_or_pos n with h0 | hpos
    · subst h0; simp [hstep]
    · rw [Function.iterate_succ_apply, hstep, ih _ hpos, hupd, hget, Function.iterate_succ_apply]

/-- C6 (amended). Holding only the translate-right key for `n` frames turns `translation.x`
into the result of `n` successive `float` additions of `0.01f` and changes nothing else. -/
theorem processInput_hold_right {F : Type} [Add F] [Sub F] [FloatLiterals F] (n : Nat)
    (st : State F) :
    (processInput (onlyKey GLFW_KEY_D))^[n] st =
      { st with translation :=
          { st.translation with
            x := (fun x => x + FloatLiterals.lit_0_01)^[n] st.translation.x } } := by
  rcases Nat.eq_zero_or_pos n with h0 | hpos
  · subst h0; rfl
  · exact iterate_update _ (fun x => x + FloatLiterals.lit_0_01)
      (fun st v => { st with translation := { st.translation with x := v } })
      (fun st => st.translation.x) (fun st => (processInput_onlyKey st).1)
      (fun _ _ => rfl) (fun _ _ _ => rfl) n st hpos

/-- C7 (amended). Holding one rotation key alone for `n` frames replaces the corresponding angle
by the result of `n` successive `float` additions (Q, Z) or subtractions (E, C) of `30.0f`, one
per frame held, and changes nothing else. -/
theorem processInput_hold_rotation {F : Type} [Add F] [Sub F] [FloatLiterals F] (n : Nat)
    (st : State F) :
    (processInput (onlyKey GLFW_KEY_Q))^[n] st =
      { st with rotationAngleZ := (fun a => a + FloatLiterals.lit_30)^[n] st.rotationAngleZ } ∧
    (processInput (onlyKey GLFW_KEY_E))^[n] st =
      { st with rotationAngleZ := (fun a => a - FloatLiterals.lit_30)^[n] st.rotationAngleZ } ∧
    (processInput (onlyKey GLFW_KEY_Z))^[n] st =
      { st with rotationAngleY := (fun a => a + FloatLiterals.lit_30)^[n] st.rotationAngleY } ∧
    (processInput (onlyKey GLFW_KEY_C))^[n] st =
      { st with rotationAngleY := (fun a => a - FloatLiterals.lit_30)^[n] st.rotationAngleY } := by
  rcases Nat.eq_zero_or_pos n with h0 | hpos
  · subst h0; exact ⟨rfl, rfl, rfl, rfl⟩
  · refine ⟨?_, ?_, ?_, ?_⟩
    · exact iterate_update _ (fun a => a + FloatLiterals.lit_30)
        (fun st v => { st with rotationAngleZ := v }) (fun st => st.rotationAngleZ)
        (fun st => (processInput_onlyKey st).2.1) (fun _ _ => rfl) (fun _ _ _ => rfl) n st hpos
    · exact iterate_update _ (fun a => a - FloatLiterals.lit_30)
        (fun st v => { st with rotationAngleZ := v }) (fun st => st.rotationAngleZ)
        (fun st => (processInput_onlyKey st).2.2.1) (fun _ _ => rfl) (fun _ _ _ => rfl) n st hpos
    · exact iterate_update _ (fun a => a + FloatLiterals.lit_30)
        (fun st v => { st with rotationAngleY := v }) (fun st => st.rotationAngleY)
        (fun st => (processInput_onlyKey st).2.2.2.1) (fun _ _ => rfl) (fun _ _ _ => rfl) n st
        hpos
    · exact iterate_update _ (fun a => a - FloatLiterals.lit_30)
        (fun st v => { st with rotationAngleY := v }) (fun st => st.rotationAngleY)
        (fun st => (processInput_onlyKey st).2.2.2.2) (fun _ _ => rfl) (fun _ _ _ => rfl) n st
        hpos

/-- C6 (counterexample). At `translation.x = 262144.0f` one frame with only D pressed leaves
`translation.x` at `262144.0f`: in binary32 `262144 + 0.01` rounds back to `262144`, so the
increase is 0 and not `0.01 * 1`. -/
theorem step_right_absorbed_at_262144 :
    farRightState.translation.x = Float32.ofInt 262144 ∧
    ((processInput (onlyKey GLFW_KEY_D))^[1] farRightState).translation.x =
      Float32.ofInt 262144 := by
  decide

/-- C7 (counterexample). From the initial angle 0, holding Q alone for two frames gives
`rotationAngleZ = 60`, a change of 60 degrees and not 30. -/
theorem hold_Q_two_frames_gives_60 :
    (initialState : State Float32).rotationAngleZ = Float32.ofInt 0 ∧
    ((processInput (onlyKey GLFW_KEY_Q))^[2] (initialState : State Float32)).rotationAngleZ =
      Float32.ofInt 60 := by
  decide

/-- C8 (amended). In one frame `processInput` obtains each field from its old value by applying,
in source order, the `float` operation of each pressed key mapped to it (x: `- 0.01f` for A then
`+ 0.01f` for D; y: `+ 0.01f` for W then `- 0.01f` for S; scale: `+ 0.01f` for R then `- 0.01f`
for F; angleZ: `+ 30` for Q then `- 30` for E; angleY: `+ 30` for Z then `- 30` for C) and changes
nothing else of the transform state: `translation.z` and the buffers never change, a key never
affects another field, and keys outside the eleven recognised ones have no effect. -/
theorem processInput_frame {F : Type} [Add F] [Sub F] [FloatLiterals F] (keys keys' : KeyState)
    (st : State F) :
    (processInput keys st).translation.x =
      whenPressed (keys GLFW_KEY_D) (fun x => x + FloatLiterals.lit_0_01)
        (whenPressed (keys GLFW_KEY_A) (fun x => x - FloatLiterals.lit_0_01) st.translation.x) ∧
    (processInput keys st).translation.y =
      whenPressed (keys GLFW_KEY_S) (fun y => y - FloatLiterals.lit_0_01)
        (whenPressed (keys GLFW_KEY_W) (fun y => y + FloatLiterals.lit_0_01) st.translation.y) ∧
    (processInput keys st).translation.z = st.translation.z ∧
    (processInput keys st).scaleFactor =
      whenPressed (keys GLFW_KEY_F) (fun s => s - FloatLiterals.lit_0_01)
        (whenPressed (keys GLFW_KEY_R) (fun s => s + FloatLiterals.lit_0_01) st.scaleFactor) ∧
    (processInput keys st).rotationAngleZ =
      whenPressed (keys GLFW_KEY_E) (fun a => a - FloatLiterals.lit_30)
        (whenPressed (keys GLFW_KEY_Q) (fun a => a + FloatLiterals.lit_30) st.rotationAngleZ) ∧
    (processInput keys st).rotationAngleY =
      whenPressed (keys GLFW_KEY_C) (fun a => a - FloatLiterals.lit_30)
        (whenPressed (keys GLFW_KEY_Z) (fun a => a + FloatLiterals.lit_30) st.rotationAngleY) ∧
    (processInput keys st).vertices = st.vertices ∧
    (processInput keys st).indices = st.indices ∧
    (processInput keys st).cerr = st.cerr ∧
    (processInput keys st).calls = st.calls ∧
    ((∀ k ∈ recognisedKeys, keys' k = keys k) → processInput keys' st = processInput keys st) := by
  refine ⟨by rw [processInput_eq], by rw [processInput_eq], by rw [processInput_eq],
    by rw [processInput_eq], by rw [processInput_eq], by rw [processInput_eq],
    by rw [processInput_eq], by rw [processInput_eq], by rw [processInput_eq],
    by rw [processInput_eq], ?_⟩
  intro h
  rw [processInput_eq keys' st, processInput_eq keys st,
    h GLFW_KEY_ESCAPE (by decide), h GLFW_KEY_W (by decide), h GLFW_KEY_S (by decide),
    h GLFW_KEY_A (by decide), h GLFW_KEY_D (by decide), h GLFW_KEY_R (by decide),
    h GLFW_KEY_F (by decide), h GLFW_KEY_Q (by decide), h GLFW_KEY_E (by decide),
    h GLFW_KEY_Z (by decide), h GLFW_KEY_C (by decide)]

/-- Witness: D and R held, with and without the unrecognised key 32
(space). -/
theorem processInput_frame_witness :
    processInput (pressed [GLFW_KEY_D, GLFW_KEY_R, 32]) (initialState : State Float32) =
      processInput (pressed [GLFW_KEY_D, GLFW_KEY_R]) (initialState : State Float32) :=
  (processInput_frame (pressed [GLFW_KEY_D, GLFW_KEY_R]) (pressed [GLFW_KEY_D, GLFW_KEY_R, 32])
    (initialState : State Float32)).2.2.2.2.2.2.2.2.2.2 (by decide)

/-- C8 (counterexample). At `translation.y = 1.99999988f` one frame with W and S both pressed
gives `translation.y = 2.0f`: the two opposite steps do not cancel, because `y + 0.01f` and then
`- 0.01f` are each rounded to binary32. -/
theorem opposite_keys_do_not_cancel :
    nearTwoState.translation.y = Float32.finite (16777215 * 2 ^ 126 : Nat) ∧
    (processInput (pressed [GLFW_KEY_W, GLFW_KEY_S]) nearTwoState).translation.y =
      Float32.ofInt 2 := by
  decide

/-! ## Theorems: composed transform matrix -/

theorem toMatrix_identity {R : Type} [CommRing R] :
    (glm.identity : Mat4 R).toMatrix = 1 := by
  ext i j
  fin_cases i <;> fin_cases j <;> simp [glm.identity, Mat4.toMatrix, Matrix.vecHead, Matrix.vecTail]

/-- In exact arithmetic `glm::translate(m, v)` is `m · Translate(v)`. -/
theorem toMatrix_translate {R : Type} [CommRing R] (m : Mat4 R) (v : Vec3 R) :
    (glm.translate m v).toMatrix = m.toMatrix * translateMatrix v := by
  ext i j
  fin_cases i <;> fin_cases j <;>
    simp [glm.translate, Vec4.scale, Vec4.add, Mat4.toMatrix, translateMatrix,
      Matrix.mul_apply, Fin.sum_univ_four, Matrix.vecHead, Matrix.vecTail]

/-- In exact arithmetic `glm::rotate` about the Y axis is `m · RotateY`. -/
theorem toMatrix_rotateY {R : Type} [CommRing R] (cosf sinf : R → R) (m : Mat4 R) (a : R) :
    (glm.rotate cosf sinf m a ⟨0, 1, 0⟩).toMatrix =
      m.toMatrix * rotateYMatrix (cosf a) (sinf a) := by
  ext i j
  fin_cases i <;> fin_cases j <;>
    simp [glm.rotate, Vec4.scale, Vec4.add, Mat4.toMatrix, rotateYMatrix,
      Matrix.mul_apply, Fin.sum_univ_four, Matrix.vecHead, Matrix.vecTail]

/-- In exact arithmetic `glm::rotate` about the Z axis is `m · RotateZ`. -/
theorem toMatrix_rotateZ {R : Type} [CommRing R] (cosf sinf : R → R) (m : Mat4 R) (a : R) :
    (glm.rotate cosf sinf m a ⟨0, 0, 1⟩).toMatrix =
      m.toMatrix * rotateZMatrix (cosf a) (sinf a) := by
  ext i j
  fin_cases i <;> fin_cases j <;>
    simp [glm.rotate, Vec4.scale, Vec4.add, Mat4.toMatrix, rotateZMatrix,
      Matrix.mul_apply, Fin.sum_univ_four, Matrix.vecHead, Matrix.vecTail]

/-- In exact arithmetic `glm::scale(m, (s, s, s))` is `m · Scale(s)`. -/
theorem toMatrix_scale {R : Type} [CommRing R] (m : Mat4 R) (s : R) :
    (glm.scale m ⟨s, s, s⟩).toMatrix = m.toMatrix * scaleMatrix s := by
  ext i j
  fin_cases i <;> fin_cases j <;>
    simp [glm.scale, Vec4.scale, Mat4.toMatrix, scaleMatrix, Matrix.mul_apply,
      Fin.sum_univ_four, Matrix.vecHead, Matrix.vecTail]

/-- In exact arithmetic (a commutative ring, with any cosine and sine) the matrix the code
builds is the product of the textbook matrices
`Translate(t) · RotateY(angleY) · RotateZ(angleZ) · Scale(s)`. -/
theorem transformMatrix_exact {R : Type} [CommRing R] (T : Trig R) (st : State R) :
    (transformMatrix T st).toMatrix = composedMatrix T st := by
  simp only [transformMatrix, composedMatrix, toMatrix_scale, toMatrix_rotateZ, toMatrix_rotateY,
    toMatrix_translate, toMatrix_identity, one_mul]

/-- In exact arithmetic the four factors are the textbook matrices. -/
theorem factors_exact {R : Type} [CommRing R] (cosf sinf : R → R) (t : Vec3 R) (a s : R) :
    (glm.translation t).toMatrix = translateMatrix t ∧
    (glm.rotation cosf sinf a ⟨0, 1, 0⟩).toMatrix = rotateYMatrix (cosf a) (sinf a) ∧
    (glm.rotation cosf sinf a ⟨0, 0, 1⟩).toMatrix = rotateZMatrix (cosf a) (sinf a) ∧
    (glm.scaling s).toMatrix = scaleMatrix s := by
  refine ⟨?_, ?_, ?_, ?_⟩ <;> ext i j <;> fin_cases i <;> fin_cases j <;>
    simp [glm.translation, glm.rotation, glm.scaling, Mat4.diag, Mat4.toMatrix, translateMatrix,
      rotateYMatrix, rotateZMatrix, scaleMatrix, Matrix.vecHead, Matrix.vecTail]

/-- With translation 0 and both angles 0 the matrix before scaling is the identity. -/
theorem unscaled_identity (T : Trig Float32) (hcos : T.cosf (T.radians 0) = 1)
    (hsin : T.sinf (T.radians 0) = 0) :
    glm.rotate T.cosf T.sinf
      (glm.rotate T.cosf T.sinf (glm.translate glm.identity ⟨0, 0, 0⟩) (T.radians 0) ⟨0, 1, 0⟩)
      (T.radians 0) ⟨0, 0, 1⟩ = glm.identity := by
  simp only [glm.rotate, hcos, hsin]
  decide

/-- C5. In binary32, for every finite scale factor `s` (zero, negative or large), with
translation `(0, 0, 0)` and both angles 0, the matrix `updateTransform` builds and uploads is
`diag(s, s, s, 1)`, with `s` itself on the diagonal; the initial state gives `diag(6, 6, 6, 1)`.
The cosine and sine are any functions with `cos 0 = 1` and `sin 0 = 0`. -/
theorem updateTransform_scale_only (T : Trig Float32) (hcos : T.cosf (T.radians 0) = 1)
    (hsin : T.sinf (T.radians 0) = 0) (st : State Float32)
    (ht : st.translation = ⟨0, 0, 0⟩) (hz : st.rotationAngleZ = 0) (hy : st.rotationAngleY = 0)
    (hs : st.scaleFactor.Representable) :
    transformMatrix T st = Mat4.diag st.scaleFactor st.scaleFactor st.scaleFactor 1 ∧
    (updateTransform T st).calls = st.calls ++
      [Call.glGetUniformLocation,
        Call.glUniformMatrix4fv (Mat4.diag st.scaleFactor st.scaleFactor st.scaleFactor 1)] ∧
    transformMatrix T initialState =
      Mat4.diag (Float32.ofInt 6) (Float32.ofInt 6) (Float32.ofInt 6) 1 := by
  have key : ∀ s : Float32, s.Representable →
      glm.scale (glm.identity : Mat4 Float32) ⟨s, s, s⟩ = Mat4.diag s s s 1 := by
    intro s hrep
    obtain ⟨k, hk, _⟩ := id hrep
    have h1 : (1 : Float32) * s = s := Float32.one_mul_of_representable s hrep
    have h0 : (0 : Float32) * s = 0 := by rw [hk]; exact Float32.zero_mul_finite k
    simp only [glm.scale, glm.identity, Vec4.scale, Mat4.diag, h1, h0]
  have main : ∀ st : State Float32, st.translation = ⟨0, 0, 0⟩ → st.rotationAngleZ = 0 →
      st.rotationAngleY = 0 → st.scaleFactor.Representable →
      transformMatrix T st = Mat4.diag st.scaleFactor st.scaleFactor st.scaleFactor 1 := by
    intro st ht hz hy hs
    simp only [transformMatrix, ht, hz, hy, unscaled_identity T hcos hsin]
    exact key _ hs
  refine ⟨main st ht hz hy hs, ?_, ?_⟩
  · simp only [updateTransform, main st ht hz hy hs]
  · exact main initialState rfl rfl rfl ⟨_, rfl, by decide⟩

/-- Witness: the scale factor -2.5. -/
theorem updateTransform_scale_only_witness :
    transformMatrix Trig.atZero negativeScaleState =
      Mat4.diag negativeScaleState.scaleFactor negativeScaleState.scaleFactor
        negativeScaleState.scaleFactor 1 ∧
    (updateTransform Trig.atZero negativeScaleState).calls = negativeScaleState.calls ++
      [Call.glGetUniformLocation,
        Call.glUniformMatrix4fv (Mat4.diag negativeScaleState.scaleFactor
          negativeScaleState.scaleFactor negativeScaleState.scaleFactor 1)] ∧
    transformMatrix Trig.atZero initialState =
      Mat4.diag (Float32.ofInt 6) (Float32.ofInt 6) (Float32.ofInt 6) 1 :=
  updateTransform_scale_only Trig.atZero (by decide) (by decide) negativeScaleState rfl rfl rfl
    ⟨_, rfl, by decide⟩

/-! ## Theorems: the uploaded matrix as a float matrix product -/

theorem Vec4.scale_zero_of_finite (v : Vec4 Float32) (h : v.AllFinite) :
    v.scale 0 = ⟨0, 0, 0, 0⟩ := by
  obtain ⟨hx, hy, hz, hw⟩ := h
  simp only [Vec4.scale, Float32.mul_zero_of_isFinite _ hx, Float32.mul_zero_of_isFinite _ hy,
    Float32.mul_zero_of_isFinite _ hz, Float32.mul_zero_of_isFinite _ hw]

theorem Vec4.scale_one_of_rounded (v : Vec4 Float32) (h : v.AllRounded) : v.scale 1 = v := by
  obtain ⟨hx, hy, hz, hw⟩ := h
  simp only [Vec4.scale, Float32.mul_one_of_rounded _ hx, Float32.mul_one_of_rounded _ hy,
    Float32.mul_one_of_rounded _ hz, Float32.mul_one_of_rounded _ hw]

theorem Vec4.add_zeroVec (v : Vec4 Float32) (h : v.AllRounded) :
    v.add ⟨0, 0, 0, 0⟩ = v := by
  obtain ⟨hx, hy, hz, hw⟩ := h
  simp only [Vec4.add, Float32.add_zero_of_rounded _ hx, Float32.add_zero_of_rounded _ hy,
    Float32.add_zero_of_rounded _ hz, Float32.add_zero_of_rounded _ hw]

theorem Vec4.zeroVec_add (v : Vec4 Float32) (h : v.AllRounded) :
    Vec4.add ⟨0, 0, 0, 0⟩ v = v := by
  obtain ⟨hx, hy, hz, hw⟩ := h
  simp only [Vec4.add, Float32.zero_add_of_rounded _ hx, Float32.zero_add_of_rounded _ hy,
    Float32.zero_add_of_rounded _ hz, Float32.zero_add_of_rounded _ hw]

theorem Vec4.allRounded_add (u v : Vec4 Float32) : (u.add v).AllRounded :=
  ⟨Float32.rounded_add _ _, Float32.rounded_add _ _, Float32.rounded_add _ _,
    Float32.rounded_add _ _⟩

theorem Vec4.allRounded_scale (v : Vec4 Float32) (s : Float32) : (v.scale s).AllRounded :=
  ⟨Float32.rounded_mul _ _, Float32.rounded_mul _ _, Float32.rounded_mul _ _,
    Float32.rounded_mul _ _⟩

theorem Vec4.finite_of_add (u v : Vec4 Float32) (h : (u.add v).AllFinite) :
    u.AllFinite ∧ v.AllFinite := by
  obtain ⟨hx, hy, hz, hw⟩ := h
  have h1 := Float32.isFinite_of_add _ _ hx
  have h2 := Float32.isFinite_of_add _ _ hy
  have h3 := Float32.isFinite_of_add _ _ hz
  have h4 := Float32.isFinite_of_add _ _ hw
  exact ⟨⟨h1.1, h2.1, h3.1, h4.1⟩, ⟨h1.2, h2.2, h3.2, h4.2⟩⟩

theorem Vec4.finite_of_scale (v : Vec4 Float32) (s : Float32) (h : (v.scale s).AllFinite) :
    v.AllFinite := by
  obtain ⟨hx, hy, hz, hw⟩ := h
  exact ⟨(Float32.isFinite_of_mul _ _ hx).1, (Float32.isFinite_of_mul _ _ hy).1,
    (Float32.isFinite_of_mul _ _ hz).1, (Float32.isFinite_of_mul _ _ hw).1⟩

theorem Vec4.zero_add_zero : Vec4.add (⟨0, 0, 0, 0⟩ : Vec4 Float32) ⟨0, 0, 0, 0⟩ = ⟨0, 0, 0, 0⟩ := by
  decide

/-- In binary32 `glm::translate(mat4(1.0f), t)` is the float product of the identity and
`Translate(t)`. -/
theorem translate_eq_mul (t : Vec3 Float32) :
    glm.translate glm.identity t = (glm.identity : Mat4 Float32).mul (glm.translation t) := by
  have h0 : ((((⟨1, 0, 0, 0⟩ : Vec4 Float32).scale 1).add ((⟨0, 1, 0, 0⟩ : Vec4 Float32).scale 0)).add
      ((⟨0, 0, 1, 0⟩ : Vec4 Float32).scale 0)).add ((⟨0, 0, 0, 1⟩ : Vec4 Float32).scale 0) =
      ⟨1, 0, 0, 0⟩ := by decide
  have h1 : ((((⟨1, 0, 0, 0⟩ : Vec4 Float32).scale 0).add ((⟨0, 1, 0, 0⟩ : Vec4 Float32).scale 1)).add
      ((⟨0, 0, 1, 0⟩ : Vec4 Float32).scale 0)).add ((⟨0, 0, 0, 1⟩ : Vec4 Float32).scale 0) =
      ⟨0, 1, 0, 0⟩ := by decide
  have h2 : ((((⟨1, 0, 0, 0⟩ : Vec4 Float32).scale 0).add ((⟨0, 1, 0, 0⟩ : Vec4 Float32).scale 0)).add
      ((⟨0, 0, 1, 0⟩ : Vec4 Float32).scale 1)).add ((⟨0, 0, 0, 1⟩ : Vec4 Float32).scale 0) =
      ⟨0, 0, 1, 0⟩ := by decide
  have h3 : (⟨0, 0, 0, 1⟩ : Vec4 Float32).scale 1 = ⟨0, 0, 0, 1⟩ := by decide
  simp only [glm.translate, glm.identity, Mat4.mul, glm.translation, h0, h1, h2, h3]

/-- In binary32, for a matrix `m` of numbers, `glm::rotate(m, angle, axis)` is the float product
of `m` and `Rotate(angle, axis)`. -/
theorem rotate_eq_mul (cosf sinf : Float32 → Float32) (m : Mat4 Float32) (angle : Float32)
    (axis : Vec3 Float32) (hfin : m.AllFinite) (hr : m.AllRounded) :
    glm.rotate cosf sinf m angle axis = m.mul (glm.rotation cosf sinf angle axis) := by
  obtain ⟨f0, f1, f2, f3⟩ := hfin
  simp only [glm.rotate, Mat4.mul, glm.rotation, Vec4.scale_zero_of_finite _ f0,
    Vec4.scale_zero_of_finite _ f1, Vec4.scale_zero_of_finite _ f2,
    Vec4.scale_zero_of_finite _ f3, Vec4.add_zeroVec _ (Vec4.allRounded_add _ _),
    Vec4.zero_add_zero, Vec4.scale_one_of_rounded _ hr.2.2.2,
    Vec4.zeroVec_add _ hr.2.2.2]

/-- In binary32, for a matrix `m` of numbers, `glm::scale(m, (s, s, s))` is the float product of
`m` and `Scale(s)`. -/
theorem scale_eq_mul (m : Mat4 Float32) (s : Float32) (hfin : m.AllFinite)
    (hr : m.AllRounded) : glm.scale m ⟨s, s, s⟩ = m.mul (glm.scaling s) := by
  obtain ⟨f0, f1, f2, f3⟩ := hfin
  simp only [glm.scale, Mat4.mul, glm.scaling, Mat4.diag, Vec4.scale_zero_of_finite _ f0,
    Vec4.scale_zero_of_finite _ f1, Vec4.scale_zero_of_finite _ f2,
    Vec4.scale_zero_of_finite _ f3, Vec4.add_zeroVec _ (Vec4.allRounded_scale _ _),
    Vec4.zeroVec_add _ (Vec4.allRounded_scale _ _),
    Vec4.zero_add_zero, Vec4.scale_one_of_rounded _ hr.2.2.2,
    Vec4.zeroVec_add _ hr.2.2.2]

theorem scale_finite (m : Mat4 Float32) (v : Vec3 Float32) (h : (glm.scale m v).AllFinite) :
    m.AllFinite :=
  ⟨Vec4.finite_of_scale _ _ h.1, Vec4.finite_of_scale _ _ h.2.1,
    Vec4.finite_of_scale _ _ h.2.2.1, h.2.2.2⟩

theorem rotate_finite (cosf sinf : Float32 → Float32) (m : Mat4 Float32) (angle : Float32)
    (axis : Vec3 Float32) (h : (glm.rotate cosf sinf m angle axis).AllFinite) :
    m.AllFinite := by
  obtain ⟨h0, _, _, h3⟩ := h
  have a1 := Vec4.finite_of_add _ _ h0
  have a2 := Vec4.finite_of_add _ _ a1.1
  exact ⟨Vec4.finite_of_scale _ _ a2.1, Vec4.finite_of_scale _ _ a2.2,
    Vec4.finite_of_scale _ _ a1.2, h3⟩

theorem rotate_rounded (cosf sinf : Float32 → Float32) (m : Mat4 Float32) (angle : Float32)
    (axis : Vec3 Float32) (hr : m.AllRounded) :
    (glm.rotate cosf sinf m angle axis).AllRounded :=
  ⟨Vec4.allRounded_add _ _, Vec4.allRounded_add _ _, Vec4.allRounded_add _ _, hr.2.2.2⟩

theorem translate_identity_rounded (t : Vec3 Float32) :
    (glm.translate (glm.identity : Mat4 Float32) t).AllRounded :=
  ⟨⟨Float32.rounded_one, Float32.rounded_zero, Float32.rounded_zero, Float32.rounded_zero⟩,
    ⟨Float32.rounded_zero, Float32.rounded_one, Float32.rounded_zero, Float32.rounded_zero⟩,
    ⟨Float32.rounded_zero, Float32.rounded_zero, Float32.rounded_one, Float32.rounded_zero⟩,
    Vec4.allRounded_add _ _⟩

/-- C4 (amended). In binary32, whenever the matrix `updateTransform` builds has no infinite or
NaN entry, it is the product `Translate(t) · RotateY(angleY) · RotateZ(angleZ) · Scale(s)`
applied to the identity, in that order of factors: the float matrix product (GLM's
`mat4 * mat4`) taken from left to right, the rotation factors being the matrices GLM forms from
`cosf` and `sinf` of the angle.  That matrix is what `updateTransform` uploads. -/
theorem updateTransform_product (T : Trig Float32) (st : State Float32)
    (hfin : (transformMatrix T st).AllFinite) :
    transformMatrix T st = productTRRS T st ∧
    (updateTransform T st).calls = st.calls ++
      [Call.glGetUniformLocation, Call.glUniformMatrix4fv (productTRRS T st)] := by
  have key : transformMatrix T st = productTRRS T st := by
    have f3 := scale_finite _ _ hfin
    have f2 := rotate_finite _ _ _ _ _ f3
    have f1 := rotate_finite _ _ _ _ _ f2
    have r1 := translate_identity_rounded st.translation
    have r2 := rotate_rounded T.cosf T.sinf _ (T.radians st.rotationAngleY) ⟨0, 1, 0⟩ r1
    have r3 := rotate_rounded T.cosf T.sinf _ (T.radians st.rotationAngleZ) ⟨0, 0, 1⟩ r2
    show glm.scale (glm.rotate T.cosf T.sinf (glm.rotate T.cosf T.sinf
        (glm.translate glm.identity st.translation) (T.radians st.rotationAngleY) ⟨0, 1, 0⟩)
        (T.radians st.rotationAngleZ) ⟨0, 0, 1⟩)
        ⟨st.scaleFactor, st.scaleFactor, st.scaleFactor⟩ = _
    rw [scale_eq_mul _ _ f3 r3, rotate_eq_mul _ _ _ _ _ f2 r2, rotate_eq_mul _ _ _ _ _ f1 r1,
      translate_eq_mul]
    rfl
  exact ⟨key, by simp only [updateTransform, key]⟩

/-- Witness: translation `(1, 0, 0)`, both angles 0, scale 2. -/
theorem updateTransform_product_witness :
    transformMatrix Trig.atZero (shiftedState : State Float32) =
      productTRRS Trig.atZero shiftedState ∧
    (updateTransform Trig.atZero (shiftedState : State Float32)).calls =
      (shiftedState : State Float32).calls ++
        [Call.glGetUniformLocation,
          Call.glUniformMatrix4fv (productTRRS Trig.atZero shiftedState)] :=
  updateTransform_product Trig.atZero shiftedState (by decide)

/-- C4 (counterexample). Translation `(1, 0, 0)`, both angles 0, scale 2, in binary32: the last
column of the matrix the code builds is `(1, 0, 0, 1)`; the last column of the product
`Scale · RotateZ · RotateY · Translate` is `(2, 0, 0, 1)`.  The rotation factors are the matrices
GLM forms in `float`: for a quarter turn about Y the entry on the axis is
`c + (1 - c) = 1 - 2⁻²⁴`, not 1. -/
theorem updateTransform_order :
    (transformMatrix Trig.atZero (shiftedState : State Float32)).c3 = ⟨1, 0, 0, 1⟩ ∧
    (productSRRT Trig.atZero (shiftedState : State Float32)).c3 = ⟨1 + 1, 0, 0, 1⟩ ∧
    (1 + 1 : Float32) = Float32.ofInt 2 ∧ (1 : Float32) = Float32.ofInt 1 ∧
    (glm.rotation (fun _ => quarterTurnCos) (fun _ => 1) (Float32.ofInt 90) ⟨0, 1, 0⟩).c1.y =
      Float32.finite (16777215 * 2 ^ 125 : Nat) := by
  decide

/-! ## Theorems: frame loop -/

/-- The calls and the close flag of one iteration of the loop body. -/
theorem frameBody_effect {F : Type} [Zero F] [One F] [Add F] [Sub F] [Mul F] [FloatLiterals F]
    (T : Trig F) (f : Frame) (st : State F) :
    (frameBody T f st).calls = st.calls ++
      [Call.glfwPollEvents, Call.glClearColor, Call.glClear, Call.glUseProgram,
        Call.glGetUniformLocation,
        Call.glUniformMatrix4fv (transformMatrix T (processInput f.keys st)),
        Call.glPolygonMode, Call.glBindVertexArray, Call.glDrawElements st.indices.length,
        Call.glBindVertexArray, Call.glfwSwapBuffers] ∧
    (frameBody T f st).shouldClose =
      (f.keys GLFW_KEY_ESCAPE || (st.shouldClose || f.closeRequested)) := by
  constructor
  · simp only [frameBody, drawFrame, updateTransform, State.call, transformMatrix,
      processInput_eq, List.append_assoc, List.singleton_append, List.cons_append,
      List.nil_append]
  · simp only [frameBody, drawFrame, updateTransform, State.call, processInput_eq]

/-- C9. Escape only sets the close flag: `processInput` returns with the flag set and with the
updates of the other pressed keys applied; the frame is still cleared, drawn and presented; no
further iteration runs.  Without Escape `processInput` leaves the flag as it is.  The loop runs
an iteration exactly when the flag is false at the top of the loop. -/
theorem escape_closes_after_frame {F : Type} [Zero F] [One F] [Add F] [Sub F] [Mul F]
    [FloatLiterals F] (T : Trig F) (keys : KeyState) (f : Frame) (rest : List Frame)
    (st : State F) :
    (processInput keys st).shouldClose = (keys GLFW_KEY_ESCAPE || st.shouldClose) ∧
    processInput keys st =
      { processInput (release GLFW_KEY_ESCAPE keys) st with
        shouldClose := keys GLFW_KEY_ESCAPE || st.shouldClose } ∧
    (frameBody T f st).calls = st.calls ++
      [Call.glfwPollEvents, Call.glClearColor, Call.glClear, Call.glUseProgram,
        Call.glGetUniformLocation,
        Call.glUniformMatrix4fv (transformMatrix T (processInput f.keys st)),
        Call.glPolygonMode, Call.glBindVertexArray, Call.glDrawElements st.indices.length,
        Call.glBindVertexArray, Call.glfwSwapBuffers] ∧
    (st.shouldClose = false → f.keys GLFW_KEY_ESCAPE = true →
      (frameBody T f st).shouldClose = true ∧
      frameLoop T (f :: rest) st = some (frameBody T f st)) ∧
    (st.shouldClose = true → frameLoop T (f :: rest) st = some st ∧ frameLoop T [] st = some st) ∧
    (st.shouldClose = false →
      frameLoop T (f :: rest) st = frameLoop T rest (frameBody T f st)) := by
  refine ⟨?_, ?_, (frameBody_effect T f st).1, ?_, ?_, ?_⟩
  · rw [processInput_eq]
  · rw [processInput_eq keys st, processInput_eq (release GLFW_KEY_ESCAPE keys) st]
    rfl
  · intro hst hesc
    have hclose : (frameBody T f st).shouldClose = true := by
      rw [(frameBody_effect T f st).2, hesc]; rfl
    refine ⟨hclose, ?_⟩
    simp only [frameLoop, hst, Bool.false_eq_true, if_false]
    cases rest with
    | nil => simp only [frameLoop, hclose, if_true]
    | cons g rest => simp only [frameLoop, hclose, if_true]
  · intro hst
    simp only [frameLoop, hst, if_true, and_self]
  · intro hst
    simp only [frameLoop, hst, Bool.false_eq_true, if_false]

/-- Witness: the Escape frame of `twoFrames`, and a state
whose flag is already set. -/
theorem escape_closes_after_frame_witness :
    ((frameBody Trig.atZero ⟨false, pressed [GLFW_KEY_ESCAPE, GLFW_KEY_D]⟩
        (initialState : State Float32)).shouldClose = true ∧
      frameLoop Trig.atZero
        [⟨false, pressed [GLFW_KEY_ESCAPE, GLFW_KEY_D]⟩, ⟨false, onlyKey GLFW_KEY_Q⟩]
        (initialState : State Float32) =
        some (frameBody Trig.atZero ⟨false, pressed [GLFW_KEY_ESCAPE, GLFW_KEY_D]⟩
          initialState)) ∧
    (frameLoop Trig.atZero [⟨false, onlyKey GLFW_KEY_Q⟩]
        { (initialState : State Float32) with shouldClose := true } =
        some { (initialState : State Float32) with shouldClose := true } ∧
      frameLoop Trig.atZero [] { (initialState : State Float32) with shouldClose := true } =
        some { (initialState : State Float32) with shouldClose := true }) ∧
    frameLoop Trig.atZero [⟨false, onlyKey GLFW_KEY_Q⟩, ⟨true, onlyKey GLFW_KEY_Q⟩]
        (initialState : State Float32) =
      frameLoop Trig.atZero [⟨true, onlyKey GLFW_KEY_Q⟩]
        (frameBody Trig.atZero ⟨false, onlyKey GLFW_KEY_Q⟩ initialState) :=
  ⟨(escape_closes_after_frame Trig.atZero (onlyKey GLFW_KEY_Q)
      ⟨false, pressed [GLFW_KEY_ESCAPE, GLFW_KEY_D]⟩ [⟨false, onlyKey GLFW_KEY_Q⟩]
      (initialState : State Float32)).2.2.2.1 rfl rfl,
    (escape_closes_after_frame Trig.atZero (onlyKey GLFW_KEY_Q) ⟨false, onlyKey GLFW_KEY_Q⟩ []
      { (initialState : State Float32) with shouldClose := true }).2.2.2.2.1 rfl,
    (escape_closes_after_frame Trig.atZero (onlyKey GLFW_KEY_Q) ⟨false, onlyKey GLFW_KEY_Q⟩
      [⟨true, onlyKey GLFW_KEY_Q⟩] (initialState : State Float32)).2.2.2.2.2 rfl⟩

/-- The loop only ever returns with the close flag set. -/
theorem frameLoop_returns_closed {F : Type} [Zero F] [One F] [Add F] [Sub F] [Mul F] [FloatLiterals F]
    (T : Trig F) (frames : List Frame) : ∀ (st st' : State F),
    frameLoop T frames st = some st' → st'.shouldClose = true := by
  induction frames with
  | nil =>
    intro st st' h
    by_cases hc : st.shouldClose = true
    · simp only [frameLoop, hc, if_true, Option.some.injEq] at h
      rw [← h]; exact hc
    · simp [frameLoop, hc] at h
  | cons f rest ih =>
    intro st st' h
    by_cases hc : st.shouldClose = true
    · simp only [frameLoop, hc, if_true, Option.some.injEq] at h
      rw [← h]; exact hc
    · simp only [frameLoop, hc, if_false] at h
      exact ih _ _ h

/-- C10 (amended). When `glfwInit`, the window creation or `glewInit` fails, `run` returns
without loading the mesh and without entering the frame loop.  After a failed window creation it
calls `glfwTerminate` before returning, as it does at the end of a normal run; after a failed
`glfwInit` it returns at once, with no `glfwTerminate`. -/
theorem run_init_failure {F : Type} [Zero F] [One F] [Add F] [Sub F] [Mul F] [FloatLiterals F]
    (T : Trig F) (env : Env F) (st : State F) :
    (env.glfwInitOk = false → run T env st = some (st.call Call.glfwInit)) ∧
    (env.glfwInitOk = true → env.windowOk = false →
      run T env st = some
        (((st.call Call.glfwInit).call Call.glfwCreateWindow).call Call.glfwTerminate)) ∧
    (env.glfwInitOk = false ∨ env.windowOk = false ∨ env.glewOk = false →
      ∃ st' cs, run T env st = some st' ∧ st'.vertices = st.vertices ∧
        st'.indices = st.indices ∧ st'.calls = st.calls ++ cs ∧
        (∀ c ∈ cs, c.isFrameCall = false) ∧
        (st'.cerr = st.cerr ∨ st'.cerr = st.cerr ++ [glewFailureMessage])) ∧
    (env.glfwInitOk = true → env.windowOk = true → env.glewOk = true →
      ∀ st', run T env st = some st' → st'.calls.getLast? = some Call.glfwTerminate) := by
  refine ⟨?_, ?_, ?_, ?_⟩
  · intro h
    simp [run, h]
  · intro h1 h2
    simp [run, h1, h2]
  · intro h
    by_cases h1 : env.glfwInitOk = true
    · by_cases h2 : env.windowOk = true
      · have h3 : env.glewOk = false := by
          rcases h with h | h | h
          · rw [h1] at h; cases h
          · rw [h2] at h; cases h
          · exact h
        refine ⟨{ ((((st.call Call.glfwInit).call Call.glfwCreateWindow).call
            Call.glfwMakeContextCurrent).call Call.glewInit) with
            cerr := st.cerr ++ [glewFailureMessage] },
          [Call.glfwInit, Call.glfwCreateWindow, Call.glfwMakeContextCurrent, Call.glewInit],
          ?_, rfl, rfl, ?_, ?_, Or.inr rfl⟩
        · simp [run, h1, h2, h3, State.call]
        · simp [State.call]
        · simp [Call.isFrameCall]
      · have h2' : env.windowOk = false := by simpa using h2
        refine ⟨((st.call Call.glfwInit).call Call.glfwCreateWindow).call Call.glfwTerminate,
          [Call.glfwInit, Call.glfwCreateWindow, Call.glfwTerminate],
          ?_, rfl, rfl, ?_, ?_, Or.inl rfl⟩
        · simp [run, h1, h2']
        · simp [State.call]
        · simp [Call.isFrameCall]
    · have h1' : env.glfwInitOk = false := by simpa using h1
      refine ⟨st.call Call.glfwInit, [Call.glfwInit], ?_, rfl, rfl, ?_, ?_, Or.inl rfl⟩
      · simp [run, h1']
      · simp [State.call]
      · simp [Call.isFrameCall]
  · intro h1 h2 h3 st' hrun
    simp only [run, h1, h2, h3, Bool.not_true, Bool.false_eq_true, if_false] at hrun
    obtain ⟨s1, _, hrun⟩ := Option.bind_eq_some.1 hrun
    obtain ⟨s2, _, hrun⟩ := Option.bind_eq_some.1 hrun
    simp only [Option.some.injEq] at hrun
    rw [← hrun]
    simp [State.call]

/-- Witness: one execution for each failure, and one that closes
normally. -/
theorem run_init_failure_witness :
    run Trig.atZero glfwInitFails initialState = some (initialState.call Call.glfwInit) ∧
    run Trig.atZero windowFails initialState = some
      (((initialState.call Call.glfwInit).call Call.glfwCreateWindow).call Call.glfwTerminate) ∧
    (∃ st' cs, run Trig.atZero glewFails initialState = some st' ∧
        st'.vertices = (initialState : State Float32).vertices ∧
        st'.indices = (initialState : State Float32).indices ∧
        st'.calls = (initialState : State Float32).calls ++ cs ∧
        (∀ c ∈ cs, c.isFrameCall = false) ∧
        (st'.cerr = (initialState : State Float32).cerr ∨
          st'.cerr = (initialState : State Float32).cerr ++ [glewFailureMessage])) ∧
    ((run Trig.atZero twoFrames initialState).get (by decide)).calls.getLast? =
      some Call.glfwTerminate :=
  ⟨(run_init_failure Trig.atZero glfwInitFails initialState).1 rfl,
    (run_init_failure Trig.atZero windowFails initialState).2.1 rfl rfl,
    (run_init_failure Trig.atZero glewFails initialState).2.2.1 (Or.inr (Or.inr rfl)),
    (run_init_failure Trig.atZero twoFrames initialState).2.2.2 rfl rfl rfl _
      (Option.some_get _).symm⟩

/-- C10 (counterexample). When `glfwInit` fails, the only call `run` makes is `glfwInit`; when
`glewInit` fails, `run` returns after `glewInit`.  Neither execution calls `glfwTerminate`. -/
theorem run_returns_without_terminate :
    (run Trig.atZero glfwInitFails initialState).map (fun st => st.calls) =
      some [Call.glfwInit] ∧
    (run Trig.atZero glewFails initialState).map (fun st => st.calls) =
      some [Call.glfwInit, Call.glfwCreateWindow, Call.glfwMakeContextCurrent, Call.glewInit] := by
  decide

end Wireframe
